import Mathlib

/-!
Verification of the lode-star GPS-simulator core (`src/lode_server/core.py` and the
three file-backed generators) against its natural-language specification.

Python strings are modelled as `List Char`; Python `float` arithmetic is modelled
over `ℚ` (exact rationals).  Where Python rounds a float to a fixed number of
decimals (`%0w.df` formatting) the model rounds the rational to the nearest
decimal (half up); the spec claims under scrutiny only require agreement within
that rounding.  Fallible Python code (raising `ValueError` and friends) is
modelled with `Option` / `Except`.
-/

/-- Python `str`, modelled as a list of characters. -/
abbrev Str := List Char

/-- String literal helper: a Lean string literal viewed as a `Str`. -/
def lit (s : String) : Str := s.toList

/-- ASCII decimal digit test (Python `str.isdigit` on ASCII). -/
def isDigitChar (c : Char) : Bool := 48 ≤ c.toNat && c.toNat ≤ 57

/-- Python whitespace (the characters `str.strip` removes). -/
def isSpaceChar (c : Char) : Bool :=
  c == ' ' || c == '\t' || c == '\n' || c == '\r' || c == '\x0b' || c == '\x0c'

/-- The decimal digit character for a value below ten. -/
def digitOfNat : Nat → Char
  | 0 => '0' | 1 => '1' | 2 => '2' | 3 => '3' | 4 => '4'
  | 5 => '5' | 6 => '6' | 7 => '7' | 8 => '8' | 9 => '9'
  | _ => '?'

/-- Read a digit string as a natural number (the arithmetic core of Python
`int`); non-digit characters are garbage-in-garbage-out, callers check first. -/
def parseNat (s : Str) : Nat := s.foldl (fun a c => 10 * a + (c.toNat - 48)) 0

/-- Little-endian base-`b` digits of `n`, computed with structural recursion on
a fuel bound so that the kernel can evaluate it (`digitsFuel b n n` agrees with
Mathlib's `Nat.digits b n` for `2 ≤ b`). -/
def digitsFuel (b : Nat) : Nat → Nat → List Nat
  | 0, _ => []
  | _ + 1, 0 => []
  | fuel + 1, n + 1 => (n + 1) % b :: digitsFuel b fuel ((n + 1) / b)

/-- Decimal representation of a natural number (Python `str(n)` for `n ≥ 0`). -/
def natDigits (n : Nat) : Str :=
  if n = 0 then ['0'] else ((digitsFuel 10 n n).map digitOfNat).reverse

/-- Zero-padded decimal representation, Python `f-string` `{n:0wd}`. -/
def natPad (w : Nat) (n : Nat) : Str :=
  List.replicate (w - (natDigits n).length) '0' ++ natDigits n

/-- Python `int(s)` on an optionally signed decimal string; `none` models the
`ValueError` raise.  (Surrounding whitespace and underscores are not modelled;
no call site in this development feeds them.) -/
def pyInt? (s : Str) : Option Int :=
  match s with
  | [] => none
  | c :: r =>
    if c = '-' then (if r ≠ [] ∧ r.all isDigitChar then some (-(parseNat r : Int)) else none)
    else if c = '+' then (if r ≠ [] ∧ r.all isDigitChar then some ((parseNat r : Int)) else none)
    else if (c :: r).all isDigitChar then some ((parseNat (c :: r) : Int)) else none

/-- Split a list at the first character satisfying `p`: returns the part before
it and, when found, the part after it. -/
def breakAt (p : Char → Bool) : Str → Str × Option Str
  | [] => ([], none)
  | c :: r =>
    if p c then ([], some r)
    else
      let q := breakAt p r
      (c :: q.1, q.2)

/-- Mantissa of Python `float(s)`: digits with an optional decimal point. -/
def pyFloatBody? (s : Str) : Option ℚ :=
  let q := breakAt (fun c => c == '.') s
  match q.2 with
  | none => if q.1 ≠ [] ∧ q.1.all isDigitChar then some ((parseNat q.1 : ℚ)) else none
  | some fp =>
    if (q.1.all isDigitChar ∧ fp.all isDigitChar) ∧ (q.1 ≠ [] ∨ fp ≠ []) then
      some ((parseNat q.1 : ℚ) + (parseNat fp : ℚ) / (10 : ℚ) ^ fp.length)
    else none

/-- Unsigned part of Python `float(s)`, with an optional decimal exponent. -/
def pyFloatMag? (s : Str) : Option ℚ :=
  let q := breakAt (fun c => c == 'e' || c == 'E') s
  match q.2 with
  | none => pyFloatBody? q.1
  | some ex =>
    match pyFloatBody? q.1 with
    | none => none
    | some m =>
      match ex with
      | [] => none
      | c :: ed =>
        if c = '-' then
          (if ed ≠ [] ∧ ed.all isDigitChar then some (m / (10 : ℚ) ^ parseNat ed) else none)
        else if c = '+' then
          (if ed ≠ [] ∧ ed.all isDigitChar then some (m * (10 : ℚ) ^ parseNat ed) else none)
        else if (c :: ed).all isDigitChar then some (m * (10 : ℚ) ^ parseNat (c :: ed)) else none

/-- Python `float(s)` on a decimal literal (exact rational value of the decimal
text; `inf` / `nan` / underscores are not modelled).  `none` models the raise. -/
def pyFloat? (s : Str) : Option ℚ :=
  match s with
  | [] => pyFloatMag? []
  | c :: r =>
    if c = '-' then (pyFloatMag? r).map (fun x => -x)
    else if c = '+' then pyFloatMag? r
    else pyFloatMag? (c :: r)

/-- Remove trailing characters satisfying `p`. -/
def dropTrail (p : Char → Bool) (s : Str) : Str := (s.reverse.dropWhile p).reverse

/-- Python `str.strip()`. -/
def pyStrip (s : Str) : Str := dropTrail isSpaceChar (s.dropWhile isSpaceChar)

/-- Python `s[:s.index(ch)] if ch in s else s` specialised to the decoder's
star-truncation: everything from the first `*` on is discarded. -/
def truncAtStar (s : Str) : Str :=
  if '*' ∈ s then s.takeWhile (fun c => c != '*') else s

/-- Python `int()` truncation of a rational toward zero. -/
def pyTrunc (q : ℚ) : Int := if 0 ≤ q then ⌊q⌋ else -⌊-q⌋

/-- Python slice `s[:i]` (negative `i` counts from the end). -/
def pySliceTo (i : Int) (s : Str) : Str :=
  if 0 ≤ i then s.take i.toNat else s.take (s.length - i.natAbs)

/-- Python slice `s[i:]` (negative `i` counts from the end). -/
def pySliceFromInt (i : Int) (s : Str) : Str :=
  if 0 ≤ i then s.drop i.toNat else s.drop (s.length - i.natAbs)

-- ### Basic lemmas about the digit machinery

theorem digitsFuel_eq_digits (b : Nat) (hb : 2 ≤ b) :
    ∀ fuel n : Nat, n ≤ fuel → digitsFuel b fuel n = Nat.digits b n := by
  intro fuel
  induction fuel with
  | zero =>
    intro n hn
    have : n = 0 := Nat.le_zero.mp hn
    subst this
    simp [digitsFuel]
  | succ f ih =>
    intro n hn
    match n with
    | 0 => simp [digitsFuel]
    | m + 1 =>
      have hdiv : (m + 1) / b ≤ f := by
        have : (m + 1) / b < m + 1 := Nat.div_lt_self (Nat.succ_pos m) (by omega)
        omega
      rw [show digitsFuel b (f + 1) (m + 1) = (m + 1) % b :: digitsFuel b f ((m + 1) / b) from rfl,
        ih ((m + 1) / b) hdiv, Nat.digits_def' (by omega : 1 < b) (Nat.succ_pos m)]

theorem natDigits_eq (n : Nat) :
    natDigits n = if n = 0 then ['0'] else ((Nat.digits 10 n).map digitOfNat).reverse := by
  rw [natDigits, digitsFuel_eq_digits 10 (by norm_num) n n le_rfl]

theorem digitOfNat_toNat {d : Nat} (h : d < 10) : (digitOfNat d).toNat = 48 + d := by
  interval_cases d <;> rfl

theorem isDigitChar_digitOfNat {d : Nat} (h : d < 10) : isDigitChar (digitOfNat d) = true := by
  interval_cases d <;> rfl

theorem parseNat_append_digits (s : Str) (L : List Nat) (hL : ∀ d ∈ L, d < 10) :
    parseNat (s ++ (L.map digitOfNat).reverse) =
      parseNat s * 10 ^ L.length + Nat.ofDigits 10 L := by
  induction L generalizing s with
  | nil => simp [Nat.ofDigits]
  | cons d T ih =>
    have hd : d < 10 := hL d (by simp)
    have hT : ∀ x ∈ T, x < 10 := fun x hx => hL x (by simp [hx])
    have hrev : (List.map digitOfNat (d :: T)).reverse =
        (List.map digitOfNat T).reverse ++ [digitOfNat d] := by simp
    have hstep : ∀ t : Str, parseNat (t ++ [digitOfNat d]) = 10 * parseNat t + d := by
      intro t
      simp [parseNat, List.foldl_append, digitOfNat_toNat hd]
    rw [hrev, ← List.append_assoc, hstep, ih s hT, Nat.ofDigits_cons]
    simp [List.length_cons, pow_succ]
    ring

theorem parseNat_natDigits (n : Nat) : parseNat (natDigits n) = n := by
  by_cases h : n = 0
  · subst h; rfl
  · have hd : ∀ d ∈ Nat.digits 10 n, d < 10 := fun d hdm => Nat.digits_lt_base (by norm_num) hdm
    have := parseNat_append_digits [] (Nat.digits 10 n) hd
    rw [natDigits_eq]
    simpa [h, parseNat, Nat.ofDigits_digits] using this

theorem natDigits_all_digits (n : Nat) : (natDigits n).all isDigitChar = true := by
  by_cases h : n = 0
  · subst h; rfl
  · rw [natDigits_eq]
    simp only [h, if_false, List.all_eq_true, List.mem_reverse, List.mem_map]
    rintro c ⟨d, hdm, rfl⟩
    exact isDigitChar_digitOfNat (Nat.digits_lt_base (by norm_num) hdm)

theorem natDigits_length_le {n w : Nat} (hw : 1 ≤ w) (h : n < 10 ^ w) :
    (natDigits n).length ≤ w := by
  by_cases h0 : n = 0
  · subst h0; simpa [natDigits] using hw
  · have hlen : (Nat.digits 10 n).length = Nat.log 10 n + 1 :=
      Nat.digits_len 10 n (by norm_num) h0
    have hlog : Nat.log 10 n < w := (Nat.lt_pow_iff_log_lt (by norm_num) h0).mp h
    rw [natDigits_eq]
    simp only [h0, if_false, List.length_reverse, List.length_map]
    omega

theorem natDigits_ne_nil (n : Nat) : natDigits n ≠ [] := by
  by_cases h : n = 0
  · subst h; simp [natDigits]
  · rw [natDigits_eq]
    simp only [h, if_false]
    intro hc
    have hnil : Nat.digits 10 n = [] := by
      have := congrArg List.length hc
      simp at this
      exact List.length_eq_zero.mp (by simpa using this)
    exact (Nat.digits_ne_nil_iff_ne_zero.mpr h) hnil

theorem parseNat_replicate_zero_append (k : Nat) (s : Str) :
    parseNat (List.replicate k '0' ++ s) = parseNat s := by
  induction k with
  | zero => simp
  | succ m ih =>
    have : List.replicate (m + 1) '0' ++ s = '0' :: (List.replicate m '0' ++ s) := by
      simp [List.replicate_succ]
    rw [this]
    simpa [parseNat] using ih

theorem parseNat_natPad (w n : Nat) : parseNat (natPad w n) = n := by
  rw [natPad, parseNat_replicate_zero_append, parseNat_natDigits]

theorem natPad_all_digits (w n : Nat) : (natPad w n).all isDigitChar = true := by
  simp only [natPad, List.all_append, Bool.and_eq_true]
  refine ⟨?_, natDigits_all_digits n⟩
  rw [List.all_eq_true]
  intro c hc
  rw [List.eq_of_mem_replicate hc]
  rfl

theorem natPad_length {w n : Nat} (hw : 1 ≤ w) (h : n < 10 ^ w) :
    (natPad w n).length = w := by
  have hle := natDigits_length_le hw h
  simp [natPad, List.length_replicate]
  omega

theorem natPad_ne_nil (w n : Nat) : natPad w n ≠ [] := by
  intro h
  exact natDigits_ne_nil n (List.append_eq_nil.mp h).2

-- ### Python split / hex rendering

/-- Python `str.split(sep)` for a single-character separator: does not collapse
adjacent separators and yields `[""]` on the empty string. -/
def pySplit (sep : Char) : Str → List Str
  | [] => [[]]
  | c :: r =>
    match pySplit sep r with
    | f :: fs => if c = sep then [] :: f :: fs else (c :: f) :: fs
    | [] => [[]]

/-- Uppercase hexadecimal digit for a value below sixteen. -/
def hexDigitOfNat : Nat → Char
  | 0 => '0' | 1 => '1' | 2 => '2' | 3 => '3' | 4 => '4'
  | 5 => '5' | 6 => '6' | 7 => '7' | 8 => '8' | 9 => '9'
  | 10 => 'A' | 11 => 'B' | 12 => 'C' | 13 => 'D' | 14 => 'E' | 15 => 'F'
  | _ => '?'

/-- Uppercase hexadecimal representation of a natural number. -/
def hexDigits (n : Nat) : Str :=
  if n = 0 then ['0'] else ((digitsFuel 16 n n).map hexDigitOfNat).reverse

/-- Python `f-string` `{n:02X}`: uppercase hex, zero-padded to two digits. -/
def hex2 (n : Nat) : Str := List.replicate (2 - (hexDigits n).length) '0' ++ hexDigits n

-- ### Python datetime model

/-- A Python `datetime.datetime`; `utc` records whether `tzinfo` is
`timezone.utc` (`false` models a naive datetime). -/
structure PyDatetime where
  year : Int
  month : Int
  day : Int
  hour : Int
  minute : Int
  second : Int
  microsecond : Int
  utc : Bool
deriving DecidableEq, Repr

/-- Gregorian leap-year rule (Python `calendar.isleap`). -/
def isLeapYear (y : Int) : Bool := (y % 4 == 0 && y % 100 != 0) || y % 400 == 0

/-- Days in a month of a given year. -/
def daysInMonth (y m : Int) : Int :=
  if m = 2 then (if isLeapYear y then 29 else 28)
  else if m = 4 ∨ m = 6 ∨ m = 9 ∨ m = 11 then 30
  else 31

/-- The field ranges Python `datetime` enforces at construction. -/
def PyDatetime.Valid (t : PyDatetime) : Prop :=
  1 ≤ t.year ∧ t.year ≤ 9999 ∧ 1 ≤ t.month ∧ t.month ≤ 12 ∧
  1 ≤ t.day ∧ t.day ≤ daysInMonth t.year t.month ∧
  0 ≤ t.hour ∧ t.hour ≤ 23 ∧ 0 ≤ t.minute ∧ t.minute ≤ 59 ∧
  0 ≤ t.second ∧ t.second ≤ 59 ∧ 0 ≤ t.microsecond ∧ t.microsecond ≤ 999999

instance (t : PyDatetime) : Decidable t.Valid := by
  unfold PyDatetime.Valid
  infer_instance

/-- Python `datetime(year, month, day, hour, minute, second, microsecond,
tzinfo)`: `none` models the `ValueError` raise on out-of-range fields (this is
also what `datetime.replace` validates). -/
def mkDatetime? (y mo d h mi s μ : Int) (utc : Bool) : Option PyDatetime :=
  let t : PyDatetime := ⟨y, mo, d, h, mi, s, μ, utc⟩
  if t.Valid then some t else none

-- ### The Position dataclass (core.py)

/-- `Position` from `core.py`: one space-time sample plus route metadata. -/
structure Position where
  index : Int
  lat : ℚ
  lon : ℚ
  speed : ℚ
  elevation : ℚ
  time : PyDatetime
  duration : ℚ := 0
  transition : Str := lit "auto"
  description : Str := []
deriving DecidableEq, Repr

-- ### NMEAEncoder (core.py)

/-- XOR of the character values of a sentence body
(`NMEAEncoder.calculate_checksum` before hex rendering). -/
def xorChecksum (s : Str) : Nat := s.foldl (fun a c => Nat.xor a c.toNat) 0

/-- `NMEAEncoder.calculate_checksum`: XOR of every byte, as two uppercase hex
digits. -/
def calculate_checksum (s : Str) : Str := hex2 (xorChecksum s)

/-- Python `f-string` `{q:0w.df}` fixed-point float formatting, modelled over
`ℚ` with round-half-up to `decs` decimals: `decs` decimals, zero-padded to
total width `width`. -/
def fmtFloat (decs width : Nat) (q : ℚ) : Str :=
  let n : Int := round (q * (10 : ℚ) ^ decs)
  let dp : Str := natDigits (n.natAbs / 10 ^ decs) ++
    (if decs = 0 then [] else '.' :: natPad decs (n.natAbs % 10 ^ decs))
  if n < 0 then '-' :: (List.replicate (width - (dp.length + 1)) '0' ++ dp)
  else List.replicate (width - dp.length) '0' ++ dp

/-- `NMEAEncoder.format_coords`: packed degree-minute coordinate fields and
hemisphere letters, as `(lat_str, lat_dir, lon_str, lon_dir)`. -/
def format_coords (lat lon : ℚ) : Str × Str × Str × Str :=
  let latDeg := pyTrunc lat
  let latMin := |lat - (latDeg : ℚ)| * 60
  let latDir := if 0 ≤ lat then lit "N" else lit "S"
  let latStr := natPad 2 latDeg.natAbs ++ fmtFloat 6 9 latMin
  let lonDeg := pyTrunc lon
  let lonMin := |lon - (lonDeg : ℚ)| * 60
  let lonDir := if 0 ≤ lon then lit "E" else lit "W"
  let lonStr := natPad 3 lonDeg.natAbs ++ fmtFloat 6 9 lonMin
  (latStr, latDir, lonStr, lonDir)

/-- `data.time.strftime("%H%M%S.%f")[:-3]`: hours, minutes, seconds and the
microseconds truncated to milliseconds. -/
def timeField (t : PyDatetime) : Str :=
  natPad 2 t.hour.toNat ++ natPad 2 t.minute.toNat ++ natPad 2 t.second.toNat ++
    '.' :: (natPad 6 t.microsecond.toNat).take 3

/-- `data.time.strftime("%d%m%y")`. -/
def dateField (t : PyDatetime) : Str :=
  natPad 2 t.day.toNat ++ natPad 2 t.month.toNat ++ natPad 2 (t.year.toNat % 100)

/-- Join sentence fields with commas (Python `",".join`). -/
def joinFields : List Str → Str
  | [] => []
  | [f] => f
  | f :: g :: rest => f ++ ',' :: joinFields (g :: rest)

/-- Sentence framing: `$<body>*<checksum>\r\n`. -/
def frame (body : Str) : Str :=
  '$' :: body ++ '*' :: (calculate_checksum body ++ ['\r', '\n'])

/-- The comma-separated fields of the GGA sentence body built by
`NMEAEncoder.encode_gga` (fixed quality `1`, satellites `08`, HDOP `1.0`,
geoid separation `0.0`, empty DGPS fields). -/
def encodeGGAFields (p : Position) : List Str :=
  let c := format_coords p.lat p.lon
  [lit "GPGGA", timeField p.time, c.1, c.2.1, c.2.2.1, c.2.2.2,
   lit "1", lit "08", lit "1.0", fmtFloat 1 0 p.elevation,
   lit "M", lit "0.0", lit "M", [], []]

/-- `NMEAEncoder.encode_gga`. -/
def encode_gga (p : Position) : Str := frame (joinFields (encodeGGAFields p))

/-- The comma-separated fields of the RMC sentence body built by
`NMEAEncoder.encode_rmc` (validity `A`, speed converted to knots by
`* 0.539957`, fixed course `0.0`, fixed trailing mode `A`). -/
def encodeRMCFields (p : Position) : List Str :=
  let c := format_coords p.lat p.lon
  [lit "GPRMC", timeField p.time, lit "A", c.1, c.2.1, c.2.2.1, c.2.2.2,
   fmtFloat 1 0 (p.speed * (539957 / 1000000 : ℚ)), lit "0.0",
   dateField p.time, [], [], lit "A"]

/-- `NMEAEncoder.encode_rmc`. -/
def encode_rmc (p : Position) : Str := frame (joinFields (encodeRMCFields p))

-- ### NMEADecoder (core.py)

/-- `NMEADecoder._parse_coordinate`: packed degree-minute text to decimal
degrees, with the source's fallback heuristics for malformed layouts.
`none` models the `ValueError` / `IndexError` raises of `int` / `float`. -/
def parseCoordinate? (coordStr : Str) (maxDegDigits : Nat) : Option ℚ :=
  if coordStr = [] then some 0
  else if '.' ∈ coordStr then
    let dotPos := (breakAt (fun c => c == '.') coordStr).1.length
    if 4 ≤ dotPos then
      let degEnd := dotPos - 2
      match pyInt? (coordStr.take degEnd), pyFloat? (coordStr.drop degEnd) with
      | some deg, some mn => some ((deg : ℚ) + mn / 60)
      | _, _ => none
    else
      let degDigits : Int := min (maxDegDigits : Int) ((coordStr.length : Int) - 2)
      match pyInt? (pySliceTo degDigits coordStr), pyFloat? (pySliceFromInt degDigits coordStr) with
      | some deg, some mn => some ((deg : ℚ) + mn / 60)
      | _, _ => none
  else
    let degDigits : Int :=
      if 2 < coordStr.length then min (maxDegDigits : Int) ((coordStr.length : Int) - 2)
      else (maxDegDigits : Int)
    match pyInt? (pySliceTo degDigits coordStr) with
    | none => none
    | some deg =>
      if degDigits < (coordStr.length : Int) then
        match pyFloat? (pySliceFromInt degDigits coordStr) with
        | some mn => some ((deg : ℚ) + mn / 60)
        | none => none
      else some ((deg : ℚ) + 0 / 60)

/-- `NMEADecoder._parse_lat`. -/
def parseLat? (latStr ns : Str) : Option ℚ :=
  if latStr = [] ∨ ns = [] then some 0
  else (parseCoordinate? latStr 2).map (fun l => if ns = lit "S" then -l else l)

/-- `NMEADecoder._parse_lon`. -/
def parseLon? (lonStr ew : Str) : Option ℚ :=
  if lonStr = [] ∨ ew = [] then some 0
  else (parseCoordinate? lonStr 3).map (fun l => if ew = lit "W" then -l else l)

/-- `NMEADecoder._parse_datetime`: `none` models the caught-and-swallowed
exception path (the function returns `None`).  `now` stands for
`datetime.now(timezone.utc)` at the moment of the call. -/
def parseDatetime? (now : PyDatetime) (timeStr : Str) (dateStr : Option Str) :
    Option PyDatetime :=
  if timeStr = [] then none
  else
    match pyInt? (timeStr.take 2), pyInt? ((timeStr.drop 2).take 2),
        pyInt? ((timeStr.drop 4).take 2) with
    | some hour, some minute, some second =>
      let micro? : Option Int :=
        if '.' ∈ timeStr then
          match pyFloat? ('0' :: '.' :: (pySplit '.' timeStr).getD 1 []) with
          | some f => some (pyTrunc (f * 1000000))
          | none => none
        else some 0
      match micro? with
      | none => none
      | some micro =>
        match dateStr with
        | some ds =>
          match pyInt? (ds.take 2), pyInt? ((ds.drop 2).take 2),
              pyInt? ((ds.drop 4).take 2) with
          | some day, some month, some yy =>
            mkDatetime? (yy + 2000) month day hour minute second micro true
          | _, _, _ => none
        | none => mkDatetime? now.year now.month now.day hour minute second micro now.utc
    | _, _, _ => none

/-- The decoder's preprocessing: strip, truncate at the first `*`, drop the
leading `$` and split the rest on commas. -/
def preprocess (nmea : Str) : List Str :=
  pySplit ',' ((truncAtStar (pyStrip nmea)).drop 1)

/-- Dispatch of `NMEADecoder.decode` on the already-split field list.  Field
`k` of the Python list is `rest.getD (k-1) []` here; every access is guarded
by the length check exactly as in the source. -/
def decodeFields (now : PyDatetime) (fields : List Str) : Except Str Position :=
  match fields with
  | [] => .error (lit "empty field list")
  | f0 :: rest =>
    if f0 = lit "GPRMC" ∨ f0 = lit "RMC" ∨ f0 = lit "GNRMC" then
      if rest.length + 1 < 10 ∨ rest.getD 1 [] ≠ lit "A" then
        .error (lit "Invalid RMC sentence")
      else
        match parseLat? (rest.getD 2 []) (rest.getD 3 []) with
        | none => .error (lit "latitude parse raised")
        | some lat =>
          match parseLon? (rest.getD 4 []) (rest.getD 5 []) with
          | none => .error (lit "longitude parse raised")
          | some lon =>
            match (if rest.getD 6 [] = [] then some (0 : ℚ)
                else (pyFloat? (rest.getD 6 [])).map (fun k => k * (1852 / 1000 : ℚ))) with
            | none => .error (lit "speed parse raised")
            | some speed =>
              match parseDatetime? now (rest.getD 0 []) (some (rest.getD 8 [])) with
              | none => .error (lit "No valid datetime in RMC")
              | some dt => .ok ⟨0, lat, lon, speed, 0, dt, 0, lit "auto", []⟩
    else if f0 = lit "GPGGA" ∨ f0 = lit "GGA" ∨ f0 = lit "GNGGA" then
      if rest.length + 1 < 10 then .error (lit "Invalid GGA sentence")
      else
        match parseLat? (rest.getD 1 []) (rest.getD 2 []) with
        | none => .error (lit "latitude parse raised")
        | some lat =>
          match parseLon? (rest.getD 3 []) (rest.getD 4 []) with
          | none => .error (lit "longitude parse raised")
          | some lon =>
            match (if rest.getD 8 [] = [] then some (0 : ℚ)
                else pyFloat? (rest.getD 8 [])) with
            | none => .error (lit "elevation parse raised")
            | some elevation =>
              match parseDatetime? now (rest.getD 0 []) none with
              | none => .error (lit "No valid datetime in GGA")
              | some dt => .ok ⟨0, lat, lon, 0, elevation, dt, 0, lit "auto", []⟩
    else .error (lit "Unsupported NMEA sentence type")

/-- `NMEADecoder.decode`.  `now` stands for the wall clock at the moment of the
call (used only when the sentence carries no date). -/
def decode (now : PyDatetime) (nmea : Str) : Except Str Position :=
  if nmea.head? = some '$' then decodeFields now (preprocess nmea)
  else .error (lit "Not a valid NMEA sentence")

-- ### FileGenerator common parameters (core.py)

/-- The placeholder timestamp the file loaders store before emission
(`datetime(1970, 1, 1, tzinfo=timezone.utc)`). -/
def epoch1970 : PyDatetime := ⟨1970, 1, 1, 0, 0, 0, 0, true⟩

/-- `FileGenerator._apply_common_params`: force `duration` and renumber
`index` from the override start when the overrides are present. -/
def applyCommonParams (dOv : Option ℚ) (iOv : Option Int) (position : Position)
    (originalIndex : Int) : Position :=
  let p1 := match dOv with
    | some d => { position with duration := d }
    | none => position
  match iOv with
  | some s => { p1 with index := s + (originalIndex - 1) }
  | none => p1

/-- `FileGenerator._parse_common_params` recursion: recognise
`duration=<v>` / `index=<v>` arguments (last occurrence wins), collect the
rest in order; a value that fails to parse is a construction-time error. -/
def parseCommonParamsAux (dOv : Option ℚ) (iOv : Option Int) (acc : List Str) :
    List Str → Except Str (Option ℚ × Option Int × List Str)
  | [] => .ok (dOv, iOv, acc.reverse)
  | p :: rest =>
    if (lit "duration=").isPrefixOf p then
      match pyFloat? ((breakAt (fun c => c == '=') p).2.getD []) with
      | some v => parseCommonParamsAux (some v) iOv acc rest
      | none => .error (lit "Invalid duration value")
    else if (lit "index=").isPrefixOf p then
      match pyInt? ((breakAt (fun c => c == '=') p).2.getD []) with
      | some v => parseCommonParamsAux dOv (some v) acc rest
      | none => .error (lit "Invalid index value")
    else parseCommonParamsAux dOv iOv (p :: acc) rest

/-- `FileGenerator._parse_common_params` on the whole argument tuple. -/
def parseCommonParams (args : List Str) : Except Str (Option ℚ × Option Int × List Str) :=
  parseCommonParamsAux none none [] args

-- ### Generator iteration (core.py)

/-- The mutable state of a `FileGenerator`: the eagerly loaded route and the
cursor of the next point to emit. -/
structure FileGenState where
  positions : List Position
  index : Nat
deriving DecidableEq, Repr

/-- `FileGenerator._update_position`: emit the next loaded point unchanged, or
`none` when the route is exhausted (the cursor is not advanced past the end). -/
def fileGenUpdatePosition (g : FileGenState) : Option Position × FileGenState :=
  if h : g.index < g.positions.length then
    (some (g.positions.get ⟨g.index, h⟩), ⟨g.positions, g.index + 1⟩)
  else (none, g)

/-- `CSVGenerator._update_position`: the base behaviour plus stamping `time`
with the current moment (`datetime.now(timezone.utc)`, passed as `now`). -/
def csvGenUpdatePosition (now : PyDatetime) (g : FileGenState) :
    Option Position × FileGenState :=
  match fileGenUpdatePosition g with
  | (none, g2) => (none, g2)
  | (some p, g2) => (some { p with time := now }, g2)

/-- `GeoJSONGenerator._update_position`: identical to the CSV variant; the
NMEA generator defines no override and inherits `fileGenUpdatePosition`. -/
def geojsonGenUpdatePosition (now : PyDatetime) (g : FileGenState) :
    Option Position × FileGenState :=
  match fileGenUpdatePosition g with
  | (none, g2) => (none, g2)
  | (some p, g2) => (some { p with time := now }, g2)

/-- `LodeGenerator.__next__` over a given `_update_position`:
`.error ()` models the `StopIteration` raise. -/
def lodeNext (upd : FileGenState → Option Position × FileGenState) (g : FileGenState) :
    Except Unit (Position × FileGenState) :=
  match upd g with
  | (none, _) => .error ()
  | (some p, g2) => .ok (p, g2)

-- ### CSVGenerator._load_file (csv_generator.py)

/-- Row loop of `CSVGenerator._load_file` over the rows `csv.reader` yielded
(each row a list of already-unquoted cells), carrying the running 1-based
point index.  `.error` models the exception paths, all of which the source
re-raises as a construction-time `ValueError`. -/
def csvLoadAux (dOv : Option ℚ) (iOv : Option Int) : Int → List (List Str) →
    Except Str (List Position)
  | _, [] => .ok []
  | idx, row :: rest =>
    match row with
    | [] => csvLoadAux dOv iOv idx rest
    | c0 :: _ =>
      if c0.head? = some '#' then csvLoadAux dOv iOv idx rest
      else if row.length < 5 then .error (lit "Invalid CSV format: need at least 5 columns")
      else
        match pyFloat? (row.getD 1 []), pyFloat? (row.getD 2 []),
            pyFloat? (row.getD 3 []), pyFloat? (row.getD 4 []) with
        | some lat, some lon, some speed, some elevation =>
          match (if 5 < row.length then pyFloat? (row.getD 5 []) else some (0 : ℚ)) with
          | none => .error (lit "Invalid CSV format: bad duration")
          | some duration =>
            let transition := if 6 < row.length then row.getD 6 [] else lit "auto"
            let description := if 7 < row.length then row.getD 7 [] else []
            let position := applyCommonParams dOv iOv
              ⟨idx, lat, lon, speed, elevation, epoch1970, duration, transition, description⟩ idx
            match csvLoadAux dOv iOv (idx + 1) rest with
            | .ok ps => .ok (position :: ps)
            | .error e => .error e
        | _, _, _, _ => .error (lit "Invalid CSV format: bad number")

/-- `CSVGenerator._load_file`: the row loop followed by the
no-valid-points check. -/
def csvLoadFile (dOv : Option ℚ) (iOv : Option Int) (rows : List (List Str)) :
    Except Str (List Position) :=
  match csvLoadAux dOv iOv 1 rows with
  | .error e => .error e
  | .ok ps => if ps = [] then .error (lit "No valid points found in CSV file") else .ok ps

-- ### NMEAGenerator._load_file (nmea_generator.py)

/-- Line loop of `NMEAGenerator._load_file`: decode each line (with the load
wall clock `now`), skip lines whose decode raises, number the survivors from
1, force `duration = 1.0`, then apply the common overrides. -/
def nmeaLoadAux (now : PyDatetime) (dOv : Option ℚ) (iOv : Option Int) :
    Int → List Str → List Position
  | _, [] => []
  | idx, line :: rest =>
    match decode now line with
    | .error _ => nmeaLoadAux now dOv iOv idx rest
    | .ok pos =>
      let p := applyCommonParams dOv iOv { pos with index := idx, duration := 1 } idx
      p :: nmeaLoadAux now dOv iOv (idx + 1) rest

/-- `NMEAGenerator._load_file` on the file's lines.  The source has no
zero-points check, so (unlike the CSV and GeoJSON loaders) the result is
always `.ok`. -/
def nmeaLoadFile (now : PyDatetime) (dOv : Option ℚ) (iOv : Option Int)
    (lines : List Str) : Except Str (List Position) :=
  .ok (nmeaLoadAux now dOv iOv 1 lines)

-- ### GeoJSONGenerator._load_file (geojson_generator.py)

/-- The `properties` map of a GeoJSON feature, with only the keys the loader
reads; values are modelled as already-numeric (`float` of a JSON number). -/
structure GeoProps where
  speed : Option ℚ := none
  elevation : Option ℚ := none
  duration : Option ℚ := none
  transition : Option Str := none
  description : Option Str := none
deriving DecidableEq, Repr

/-- One GeoJSON feature as `json.load` hands it to the loader. -/
structure GeoFeature where
  geomType : Str
  coordinates : List ℚ
  props : GeoProps
deriving DecidableEq, Repr

/-- Feature loop of `GeoJSONGenerator._load_file`: skip non-`Point` features,
read `coordinates[1]` / `coordinates[0]` as latitude / longitude (an
out-of-range access is a construction-time error). -/
def geojsonLoadAux (dOv : Option ℚ) (iOv : Option Int) : Int → List GeoFeature →
    Except Str (List Position)
  | _, [] => .ok []
  | idx, f :: rest =>
    if f.geomType ≠ lit "Point" then geojsonLoadAux dOv iOv idx rest
    else
      match f.coordinates.get? 1, f.coordinates.get? 0 with
      | some lat, some lon =>
        let point := applyCommonParams dOv iOv
          ⟨idx, lat, lon, f.props.speed.getD 0, f.props.elevation.getD 0, epoch1970,
           f.props.duration.getD 0, f.props.transition.getD (lit "auto"),
           f.props.description.getD []⟩ idx
        match geojsonLoadAux dOv iOv (idx + 1) rest with
        | .ok ps => .ok (point :: ps)
        | .error e => .error e
      | _, _ => .error (lit "Failed to load route file: bad coordinates")

/-- `GeoJSONGenerator._load_file`: the feature loop followed by the
no-valid-points check. -/
def geojsonLoadFile (dOv : Option ℚ) (iOv : Option Int) (features : List GeoFeature) :
    Except Str (List Position) :=
  match geojsonLoadAux dOv iOv 1 features with
  | .error e => .error e
  | .ok ps => if ps = [] then .error (lit "No valid points found in route file") else .ok ps

-- ### ClientThread broadcast (core.py)

/-- One connected client: `alive` is whether its socket writes succeed, `recv`
the bytes it has received so far.  (A write failure is modelled at pair
granularity: a dead client receives nothing of the pair and is pruned, as in
`ClientThread._broadcast`.) -/
structure Client where
  alive : Bool
  recv : Str
deriving DecidableEq, Repr

/-- `ClientThread._broadcast` for a single client: `conn.sendall(rmc)` then
`conn.sendall(gga)`, in the source's argument order; `none` models the
close-and-remove path. -/
def broadcastOne (rmc gga : Str) (c : Client) : Option Client :=
  if c.alive then some ⟨true, c.recv ++ rmc ++ gga⟩ else none

/-- `ClientThread._broadcast`: write the pair to every client, pruning the
clients whose write fails. -/
def broadcast (rmc gga : Str) (clients : List Client) : List Client :=
  clients.filterMap (broadcastOne rmc gga)

/-- `ClientThread.add_data`: FIFO enqueue of a sentence pair
(first component named `rmc`, second `gga`, as in the source). -/
def add_data (queue : List (Str × Str)) (rmc gga : Str) : List (Str × Str) :=
  queue ++ [(rmc, gga)]

/-- The drain loop of `ClientThread.run`: broadcast every queued pair in FIFO
order. -/
def processQueue (queue : List (Str × Str)) (clients : List Client) : List Client :=
  queue.foldl (fun cs pr => broadcast pr.1 pr.2 cs) clients

-- ### Broadcast lemmas (claim C1)

theorem broadcast_eq (rmc gga : Str) (clients : List Client) :
    broadcast rmc gga clients =
      (clients.filter (fun c => c.alive)).map (fun c => ⟨true, c.recv ++ rmc ++ gga⟩) := by
  induction clients with
  | nil => rfl
  | cons c cs ih =>
    by_cases hc : c.alive = true <;>
      simp [broadcast, List.filterMap_cons, broadcastOne, hc, List.filter_cons] <;>
      simpa [broadcast] using ih

theorem processQueue_cons (pr : Str × Str) (rest : List (Str × Str)) (clients : List Client) :
    processQueue (pr :: rest) clients = processQueue rest (broadcast pr.1 pr.2 clients) := rfl

theorem processQueue_drain (queue : List (Str × Str)) (clients : List Client)
    (hq : queue ≠ []) :
    processQueue queue clients =
      (clients.filter (fun c => c.alive)).map
        (fun c => ⟨true, c.recv ++ (queue.map (fun pr => pr.1 ++ pr.2)).flatten⟩) := by
  induction queue generalizing clients with
  | nil => exact absurd rfl hq
  | cons pr rest ih =>
    rw [processQueue_cons]
    by_cases hr : rest = []
    · subst hr
      show broadcast pr.1 pr.2 clients = _
      rw [broadcast_eq]
      simp [List.append_assoc]
    · rw [ih (broadcast pr.1 pr.2 clients) hr, broadcast_eq, List.filter_map]
      have hcomp : ((fun c : Client => c.alive) ∘ fun c : Client => Client.mk true (c.recv ++ pr.1 ++ pr.2)) = fun _ => true := by
        funext c
        rfl
      rw [hcomp, List.filter_true, List.map_map]
      simp [Function.comp, List.append_assoc]

/-- Claim C1 (amended): for one enqueued pair the broadcast writes the
recommended-minimum (RMC) sentence FIRST and the fix (GGA) sentence second,
back-to-back, to every surviving client; draining a non-empty queue delivers
the pairs in FIFO order, each client receiving the concatenation of
`rmc ++ gga` for every pair. -/
theorem broadcast_writes_rmc_then_gga (rmc gga : Str) (queue : List (Str × Str))
    (clients : List Client) (hq : queue ≠ []) :
    broadcast rmc gga clients =
      (clients.filter (fun c => c.alive)).map (fun c => ⟨true, c.recv ++ rmc ++ gga⟩) ∧
    processQueue queue clients =
      (clients.filter (fun c => c.alive)).map
        (fun c => ⟨true, c.recv ++ (queue.map (fun pr => pr.1 ++ pr.2)).flatten⟩) :=
  ⟨broadcast_eq rmc gga clients, processQueue_drain queue clients hq⟩

/-- Witness for `broadcast_writes_rmc_then_gga` at a concrete pair and client. -/
theorem broadcast_writes_rmc_then_gga_witness :
    (([(lit "$GPRMC,A*31\r\n", lit "$GPGGA,B*29\r\n")] : List (Str × Str)) ≠ []) ∧
    (broadcast (lit "$GPRMC,A*31\r\n") (lit "$GPGGA,B*29\r\n") [⟨true, []⟩] =
      (([⟨true, []⟩] : List Client).filter (fun c => c.alive)).map
        (fun c => ⟨true, c.recv ++ lit "$GPRMC,A*31\r\n" ++ lit "$GPGGA,B*29\r\n"⟩) ∧
    processQueue [(lit "$GPRMC,A*31\r\n", lit "$GPGGA,B*29\r\n")] [⟨true, []⟩] =
      (([⟨true, []⟩] : List Client).filter (fun c => c.alive)).map
        (fun c => ⟨true, c.recv ++
          (([(lit "$GPRMC,A*31\r\n", lit "$GPGGA,B*29\r\n")] : List (Str × Str)).map
            (fun pr => pr.1 ++ pr.2)).flatten⟩)) :=
  ⟨by decide,
   broadcast_writes_rmc_then_gga (lit "$GPRMC,A*31\r\n") (lit "$GPGGA,B*29\r\n")
     [(lit "$GPRMC,A*31\r\n", lit "$GPGGA,B*29\r\n")] [⟨true, []⟩] (by decide)⟩

/-- Claim C1 as stated is false: with the pair enqueued as `(rmc, gga)` (the
source's `add_data` argument order) a client's byte stream for the pair is NOT
the fix sentence followed by the recommended-minimum sentence — it is the
reverse. -/
theorem broadcast_gga_first_refuted :
    broadcast (lit "$GPRMC,A*31\r\n") (lit "$GPGGA,B*29\r\n") [⟨true, []⟩] =
      [⟨true, lit "$GPRMC,A*31\r\n" ++ lit "$GPGGA,B*29\r\n"⟩] ∧
    broadcast (lit "$GPRMC,A*31\r\n") (lit "$GPGGA,B*29\r\n") [⟨true, []⟩] ≠
      [⟨true, lit "$GPGGA,B*29\r\n" ++ lit "$GPRMC,A*31\r\n"⟩] := by
  constructor
  · decide
  · decide

-- ### Exhaustion (claim C8)

/-- Claim C8: once the cursor has passed the last loaded position, every pull
(base behaviour, inherited by the NMEA generator, and the CSV / GeoJSON
overrides) signals end-of-sequence (`StopIteration`, modelled as `.error ()`)
and leaves the state unchanged, so exhaustion is idempotent and no stale or
repeated Position is ever yielded; moreover every successful pull advances the
cursor by exactly one, so the pull after the last position is exhausted. -/
theorem generator_exhaustion_idempotent (now : PyDatetime) (g : FileGenState)
    (h : g.positions.length ≤ g.index) :
    fileGenUpdatePosition g = (none, g) ∧
    csvGenUpdatePosition now g = (none, g) ∧
    geojsonGenUpdatePosition now g = (none, g) ∧
    lodeNext fileGenUpdatePosition g = .error () ∧
    lodeNext (csvGenUpdatePosition now) g = .error () ∧
    lodeNext (geojsonGenUpdatePosition now) g = .error () ∧
    (∀ g2 p g3, fileGenUpdatePosition g2 = (some p, g3) →
      g3.positions = g2.positions ∧ g3.index = g2.index + 1) := by
  have hbase : fileGenUpdatePosition g = (none, g) := by
    rw [fileGenUpdatePosition, dif_neg (by omega)]
  refine ⟨hbase, ?_, ?_, ?_, ?_, ?_, ?_⟩
  · rw [csvGenUpdatePosition, hbase]
  · rw [geojsonGenUpdatePosition, hbase]
  · rw [lodeNext, hbase]
  · rw [lodeNext, csvGenUpdatePosition, hbase]
  · rw [lodeNext, geojsonGenUpdatePosition, hbase]
  · intro g2 p g3 hup
    rw [fileGenUpdatePosition] at hup
    by_cases h2 : g2.index < g2.positions.length
    · rw [dif_pos h2] at hup
      have h3 : g3 = ⟨g2.positions, g2.index + 1⟩ := (Prod.ext_iff.mp hup).2.symm
      subst h3
      exact ⟨rfl, rfl⟩
    · rw [dif_neg h2] at hup
      exact absurd (Prod.ext_iff.mp hup).1 (by simp)

/-- Witness for `generator_exhaustion_idempotent` on an exhausted one-point
route. -/
theorem generator_exhaustion_idempotent_witness :
    ((⟨[⟨1, 0, 0, 0, 0, epoch1970, 0, lit "auto", []⟩], 1⟩ : FileGenState).positions.length ≤
      (⟨[⟨1, 0, 0, 0, 0, epoch1970, 0, lit "auto", []⟩], 1⟩ : FileGenState).index) ∧
    (fileGenUpdatePosition ⟨[⟨1, 0, 0, 0, 0, epoch1970, 0, lit "auto", []⟩], 1⟩ =
        (none, ⟨[⟨1, 0, 0, 0, 0, epoch1970, 0, lit "auto", []⟩], 1⟩) ∧
      csvGenUpdatePosition epoch1970 ⟨[⟨1, 0, 0, 0, 0, epoch1970, 0, lit "auto", []⟩], 1⟩ =
        (none, ⟨[⟨1, 0, 0, 0, 0, epoch1970, 0, lit "auto", []⟩], 1⟩) ∧
      geojsonGenUpdatePosition epoch1970 ⟨[⟨1, 0, 0, 0, 0, epoch1970, 0, lit "auto", []⟩], 1⟩ =
        (none, ⟨[⟨1, 0, 0, 0, 0, epoch1970, 0, lit "auto", []⟩], 1⟩) ∧
      lodeNext fileGenUpdatePosition ⟨[⟨1, 0, 0, 0, 0, epoch1970, 0, lit "auto", []⟩], 1⟩ = .error () ∧
      lodeNext (csvGenUpdatePosition epoch1970) ⟨[⟨1, 0, 0, 0, 0, epoch1970, 0, lit "auto", []⟩], 1⟩ = .error () ∧
      lodeNext (geojsonGenUpdatePosition epoch1970) ⟨[⟨1, 0, 0, 0, 0, epoch1970, 0, lit "auto", []⟩], 1⟩ = .error () ∧
      (∀ g2 p g3, fileGenUpdatePosition g2 = (some p, g3) →
        g3.positions = g2.positions ∧ g3.index = g2.index + 1)) :=
  ⟨by decide,
   generator_exhaustion_idempotent epoch1970
     ⟨[⟨1, 0, 0, 0, 0, epoch1970, 0, lit "auto", []⟩], 1⟩ (by decide)⟩

-- ### Emission-time stamping (claim C2)

/-- Claim C2 (amended): on a successful pull the CSV and GeoJSON generators
emit the stored point with `time` replaced by the current moment (`now`, the
`datetime.now(timezone.utc)` of the call — in particular it carries UTC), while
the base `_update_position` — which the raw-NMEA generator inherits without
overriding — emits the stored point entirely unchanged, so the NMEA
generator's emitted `time` is the value decoded from the file at load time. -/
theorem emission_time_stamping (now : PyDatetime) (g : FileGenState)
    (h : g.index < g.positions.length) :
    (csvGenUpdatePosition now g).1 = some { g.positions.get ⟨g.index, h⟩ with time := now } ∧
    (geojsonGenUpdatePosition now g).1 = some { g.positions.get ⟨g.index, h⟩ with time := now } ∧
    (fileGenUpdatePosition g).1 = some (g.positions.get ⟨g.index, h⟩) := by
  have hbase : fileGenUpdatePosition g =
      (some (g.positions.get ⟨g.index, h⟩), ⟨g.positions, g.index + 1⟩) := by
    rw [fileGenUpdatePosition, dif_pos h]
  refine ⟨?_, ?_, ?_⟩
  · rw [csvGenUpdatePosition, hbase]
  · rw [geojsonGenUpdatePosition, hbase]
  · rw [hbase]

/-- Witness for `emission_time_stamping` on a one-point route. -/
theorem emission_time_stamping_witness :
    ((⟨[⟨1, 0, 0, 0, 0, epoch1970, 0, lit "auto", []⟩], 0⟩ : FileGenState).index <
      (⟨[⟨1, 0, 0, 0, 0, epoch1970, 0, lit "auto", []⟩], 0⟩ : FileGenState).positions.length) ∧
    ((csvGenUpdatePosition ⟨2030, 5, 6, 7, 8, 9, 10, true⟩
        ⟨[⟨1, 0, 0, 0, 0, epoch1970, 0, lit "auto", []⟩], 0⟩).1 =
      some { (⟨[⟨1, 0, 0, 0, 0, epoch1970, 0, lit "auto", []⟩], 0⟩ : FileGenState).positions.get
          ⟨0, by decide⟩ with time := ⟨2030, 5, 6, 7, 8, 9, 10, true⟩ } ∧
    (geojsonGenUpdatePosition ⟨2030, 5, 6, 7, 8, 9, 10, true⟩
        ⟨[⟨1, 0, 0, 0, 0, epoch1970, 0, lit "auto", []⟩], 0⟩).1 =
      some { (⟨[⟨1, 0, 0, 0, 0, epoch1970, 0, lit "auto", []⟩], 0⟩ : FileGenState).positions.get
          ⟨0, by decide⟩ with time := ⟨2030, 5, 6, 7, 8, 9, 10, true⟩ } ∧
    (fileGenUpdatePosition ⟨[⟨1, 0, 0, 0, 0, epoch1970, 0, lit "auto", []⟩], 0⟩).1 =
      some ((⟨[⟨1, 0, 0, 0, 0, epoch1970, 0, lit "auto", []⟩], 0⟩ : FileGenState).positions.get
          ⟨0, by decide⟩)) :=
  ⟨by decide,
   emission_time_stamping ⟨2030, 5, 6, 7, 8, 9, 10, true⟩
     ⟨[⟨1, 0, 0, 0, 0, epoch1970, 0, lit "auto", []⟩], 0⟩ (by decide)⟩

/-- The claim-C2 refutation input: one valid RMC line (carrying its own date
and time, and no fractional-second dot), loaded at `loadClock`. -/
def nmeaSampleLines : List Str := [lit "$GPRMC,120000,A,,,,,,,010124,,,A"]

/-- The wall clock at load time for the refutation input. -/
def loadClock : PyDatetime := ⟨2024, 2, 3, 4, 5, 6, 7, true⟩

/-- A later wall clock, standing for the moment of emission. -/
def emitClock : PyDatetime := ⟨2030, 5, 6, 7, 8, 9, 10, true⟩

/-- The generator state the NMEA loader builds from `nmeaSampleLines`. -/
def nmeaSampleState : FileGenState := ⟨nmeaLoadAux loadClock none none 1 nmeaSampleLines, 0⟩

/-- Claim C2 as stated is false for the raw-NMEA generator: the emitted
Position's `time` is the value decoded from the file (2024-01-01 12:00:00 UTC),
not the current moment at emission time (`emitClock`). -/
theorem nmea_generator_time_not_stamped_at_emission :
    ((fileGenUpdatePosition nmeaSampleState).1.map Position.time) =
      some ⟨2024, 1, 1, 12, 0, 0, 0, true⟩ ∧
    ((fileGenUpdatePosition nmeaSampleState).1.map Position.time) ≠ some emitClock := by
  constructor
  · decide
  · decide

-- ### Construction on zero usable points (claim C3)

theorem csvLoadFile_ok_ne_nil (dOv : Option ℚ) (iOv : Option Int)
    (rows : List (List Str)) (ps : List Position)
    (h : csvLoadFile dOv iOv rows = .ok ps) : ps ≠ [] := by
  rw [csvLoadFile] at h
  rcases haux : csvLoadAux dOv iOv 1 rows with e | qs
  · rw [haux] at h
    exact absurd h (by simp)
  · rw [haux] at h
    dsimp only at h
    by_cases hq : qs = []
    · rw [if_pos hq] at h
      exact absurd h (by simp)
    · rw [if_neg hq] at h
      cases h
      exact hq

theorem geojsonLoadFile_ok_ne_nil (dOv : Option ℚ) (iOv : Option Int)
    (features : List GeoFeature) (ps : List Position)
    (h : geojsonLoadFile dOv iOv features = .ok ps) : ps ≠ [] := by
  rw [geojsonLoadFile] at h
  rcases haux : geojsonLoadAux dOv iOv 1 features with e | qs
  · rw [haux] at h
    exact absurd h (by simp)
  · rw [haux] at h
    dsimp only at h
    by_cases hq : qs = []
    · rw [if_pos hq] at h
      exact absurd h (by simp)
    · rw [if_neg hq] at h
      cases h
      exact hq

theorem nmeaLoadAux_all_failed (now : PyDatetime) (dOv : Option ℚ) (iOv : Option Int)
    (idx : Int) (lines : List Str)
    (h : ∀ l ∈ lines, (decode now l).toOption = none) :
    nmeaLoadAux now dOv iOv idx lines = [] := by
  induction lines generalizing idx with
  | nil => rfl
  | cons l rest ih =>
    have hl := h l (by simp)
    rcases hd : decode now l with e | p
    · rw [nmeaLoadAux, hd]
      exact ih idx (fun x hx => h x (by simp [hx]))
    · rw [hd] at hl
      exact absurd hl (by simp [Except.toOption])

/-- Claim C3 (amended): a route that yields zero usable points is a
construction-time failure for the CSV and GeoJSON generators (their loaders
never return a usable empty route), but NOT for the raw-NMEA generator: its
loader has no zero-points check, so a file in which every line fails to decode
constructs successfully with an empty (immediately exhausted) route. -/
theorem zero_points_construction (dOv : Option ℚ) (iOv : Option Int)
    (rows : List (List Str)) (features : List GeoFeature)
    (now : PyDatetime) (lines : List Str)
    (hlines : ∀ l ∈ lines, (decode now l).toOption = none) :
    (∀ ps, csvLoadFile dOv iOv rows = .ok ps → ps ≠ []) ∧
    (∀ ps, geojsonLoadFile dOv iOv features = .ok ps → ps ≠ []) ∧
    nmeaLoadFile now dOv iOv lines = .ok [] := by
  refine ⟨fun ps h => csvLoadFile_ok_ne_nil dOv iOv rows ps h,
    fun ps h => geojsonLoadFile_ok_ne_nil dOv iOv features ps h, ?_⟩
  rw [nmeaLoadFile, nmeaLoadAux_all_failed now dOv iOv 1 lines hlines]

/-- Witness for `zero_points_construction` on a one-line file whose only line
fails to decode. -/
theorem zero_points_construction_witness :
    (∀ l ∈ [lit "garbage"], (decode loadClock l).toOption = none) ∧
    ((∀ ps, csvLoadFile none none [] = .ok ps → ps ≠ []) ∧
     (∀ ps, geojsonLoadFile none none [] = .ok ps → ps ≠ []) ∧
     nmeaLoadFile loadClock none none [lit "garbage"] = .ok []) :=
  ⟨by decide, zero_points_construction none none [] [] loadClock [lit "garbage"] (by decide)⟩

/-- Claim C3 as stated is false for the raw-NMEA generator: from a file in
which every line fails to decode, construction succeeds and hands the caller a
usable generator with an empty route, instead of failing. -/
theorem nmea_zero_points_constructs :
    nmeaLoadFile loadClock none none [lit "garbage"] = .ok [] ∧
    (decode loadClock (lit "garbage")).toOption = none := by
  constructor
  · rfl
  · decide

-- ### Index override (claim C7)

theorem applyCommonParams_index (dOv : Option ℚ) (start : Int) (p : Position) (i : Int) :
    (applyCommonParams dOv (some start) p i).index = start + (i - 1) := by
  cases dOv <;> rfl

theorem csvLoadAux_index_override (dOv : Option ℚ) (start : Int) :
    ∀ (rows : List (List Str)) (i : Int) (ps : List Position),
      csvLoadAux dOv (some start) i rows = .ok ps →
      ∀ k (hk : k < ps.length), (ps.get ⟨k, hk⟩).index = start + (i - 1) + k := by
  intro rows
  induction rows with
  | nil =>
    intro i ps h k hk
    cases h
    exact absurd hk (by simp)
  | cons row rest ih =>
    intro i ps h k hk
    rcases row with _ | ⟨c0, cells⟩
    · exact ih i ps h k hk
    · rw [csvLoadAux] at h
      by_cases hcm : c0.head? = some '#'
      · rw [if_pos hcm] at h
        exact ih i ps h k hk
      · rw [if_neg hcm] at h
        by_cases hlen : (c0 :: cells).length < 5
        · rw [if_pos hlen] at h
          exact absurd h (by simp)
        rw [if_neg hlen] at h
        rcases h1 : pyFloat? ((c0 :: cells).getD 1 []) with _ | lat
        · rw [h1] at h
          exact absurd h (by simp)
        rcases h2 : pyFloat? ((c0 :: cells).getD 2 []) with _ | lon
        · rw [h1, h2] at h
          exact absurd h (by simp)
        rcases h3 : pyFloat? ((c0 :: cells).getD 3 []) with _ | speed
        · rw [h1, h2, h3] at h
          exact absurd h (by simp)
        rcases h4 : pyFloat? ((c0 :: cells).getD 4 []) with _ | elev
        · rw [h1, h2, h3, h4] at h
          exact absurd h (by simp)
        rw [h1, h2, h3, h4] at h
        dsimp only at h
        rcases h5 : (if 5 < (c0 :: cells).length then pyFloat? ((c0 :: cells).getD 5 [])
            else some (0 : ℚ)) with _ | dur
        · rw [h5] at h
          exact absurd h (by simp)
        rw [h5] at h
        dsimp only at h
        rcases h6 : csvLoadAux dOv (some start) (i + 1) rest with e | qs
        · rw [h6] at h
          exact absurd h (by simp)
        rw [h6] at h
        dsimp only at h
        have hps : ps = applyCommonParams dOv (some start)
            ⟨i, lat, lon, speed, elev, epoch1970, dur,
              (if 6 < (c0 :: cells).length then (c0 :: cells).getD 6 [] else lit "auto"),
              (if 7 < (c0 :: cells).length then (c0 :: cells).getD 7 [] else [])⟩ i :: qs := by
          cases h
          rfl
        subst hps
        match k with
        | 0 => simpa using applyCommonParams_index dOv start _ i
        | k + 1 =>
          have hrec := ih (i + 1) qs h6 k (by simpa using hk)
          simp only [List.get_cons_succ]
          rw [hrec]
          push_cast
          ring

theorem nmeaLoadAux_index_override (now : PyDatetime) (dOv : Option ℚ) (start : Int) :
    ∀ (lines : List Str) (i : Int) (k : Nat) (p : Position),
      (nmeaLoadAux now dOv (some start) i lines).get? k = some p →
      p.index = start + (i - 1) + k := by
  intro lines
  induction lines with
  | nil =>
    intro i k p hp
    rw [nmeaLoadAux] at hp
    exact absurd hp (by simp)
  | cons l rest ih =>
    intro i k p hp
    rcases hdec : decode now l with e | pos
    · rw [show nmeaLoadAux now dOv (some start) i (l :: rest) =
          nmeaLoadAux now dOv (some start) i rest by rw [nmeaLoadAux, hdec]] at hp
      exact ih i k p hp
    · rw [show nmeaLoadAux now dOv (some start) i (l :: rest) =
          applyCommonParams dOv (some start)
            { pos with index := i, duration := 1 } i ::
            nmeaLoadAux now dOv (some start) (i + 1) rest by rw [nmeaLoadAux, hdec]] at hp
      match k with
      | 0 =>
        rw [List.get?_cons_zero] at hp
        cases hp
        simpa using applyCommonParams_index dOv start _ i
      | k + 1 =>
        rw [List.get?_cons_succ] at hp
        have hrec := ih (i + 1) k p hp
        rw [hrec]
        push_cast
        ring

theorem geojsonLoadAux_index_override (dOv : Option ℚ) (start : Int) :
    ∀ (features : List GeoFeature) (i : Int) (ps : List Position),
      geojsonLoadAux dOv (some start) i features = .ok ps →
      ∀ k (hk : k < ps.length), (ps.get ⟨k, hk⟩).index = start + (i - 1) + k := by
  intro features
  induction features with
  | nil =>
    intro i ps h k hk
    cases h
    exact absurd hk (by simp)
  | cons f rest ih =>
    intro i ps h k hk
    rw [geojsonLoadAux] at h
    by_cases hpt : f.geomType ≠ lit "Point"
    · rw [if_pos hpt] at h
      exact ih i ps h k hk
    rw [if_neg hpt] at h
    rcases h1 : f.coordinates.get? 1 with _ | lat
    · rw [h1] at h
      exact absurd h (by simp)
    rcases h2 : f.coordinates.get? 0 with _ | lon
    · rw [h1, h2] at h
      exact absurd h (by simp)
    rw [h1, h2] at h
    dsimp only at h
    rcases h6 : geojsonLoadAux dOv (some start) (i + 1) rest with e | qs
    · rw [h6] at h
      exact absurd h (by simp)
    rw [h6] at h
    dsimp only at h
    have hps : ps = applyCommonParams dOv (some start)
        ⟨i, lat, lon, f.props.speed.getD 0, f.props.elevation.getD 0, epoch1970,
          f.props.duration.getD 0, f.props.transition.getD (lit "auto"),
          f.props.description.getD []⟩ i :: qs := by
      cases h
      rfl
    subst hps
    match k with
    | 0 => simpa using applyCommonParams_index dOv start _ i
    | k + 1 =>
      have hrec := ih (i + 1) qs h6 k (by simpa using hk)
      simp only [List.get_cons_succ]
      rw [hrec]
      push_cast
      ring

theorem csvLoadFile_ok_aux (dOv : Option ℚ) (iOv : Option Int) (rows : List (List Str))
    (ps : List Position) (h : csvLoadFile dOv iOv rows = .ok ps) :
    csvLoadAux dOv iOv 1 rows = .ok ps := by
  rw [csvLoadFile] at h
  rcases haux : csvLoadAux dOv iOv 1 rows with e | qs
  · rw [haux] at h
    exact absurd h (by simp)
  · rw [haux] at h
    dsimp only at h
    by_cases hq : qs = []
    · rw [if_pos hq] at h
      exact absurd h (by simp)
    · rw [if_neg hq] at h
      cases h
      rfl

theorem geojsonLoadFile_ok_aux (dOv : Option ℚ) (iOv : Option Int)
    (features : List GeoFeature) (ps : List Position)
    (h : geojsonLoadFile dOv iOv features = .ok ps) :
    geojsonLoadAux dOv iOv 1 features = .ok ps := by
  rw [geojsonLoadFile] at h
  rcases haux : geojsonLoadAux dOv iOv 1 features with e | qs
  · rw [haux] at h
    exact absurd h (by simp)
  · rw [haux] at h
    dsimp only at h
    by_cases hq : qs = []
    · rw [if_pos hq] at h
      exact absurd h (by simp)
    · rw [if_neg hq] at h
      cases h
      rfl

/-- Claim C7: when construction parses an `index=<start>` override, every
emitted Position of every file-backed loader is renumbered to
`start + (its 1-based position among the loaded points - 1)`, i.e. the k-th
loaded point (0-based `k`) gets index `start + k`, whatever the file said. -/
theorem index_override_renumbers (args : List Str) (dOv : Option ℚ) (start : Int)
    (restArgs : List Str)
    (hargs : parseCommonParams args = .ok (dOv, some start, restArgs))
    (rows : List (List Str)) (ps : List Position)
    (hcsv : csvLoadFile dOv (some start) rows = .ok ps)
    (features : List GeoFeature) (qs : List Position)
    (hgeo : geojsonLoadFile dOv (some start) features = .ok qs)
    (now : PyDatetime) (lines : List Str) :
    (∀ k p, ps.get? k = some p → p.index = start + k) ∧
    (∀ k p, qs.get? k = some p → p.index = start + k) ∧
    (∀ k p, (nmeaLoadAux now dOv (some start) 1 lines).get? k = some p →
      p.index = start + k) := by
  refine ⟨?_, ?_, ?_⟩
  · intro k p hp
    rcases List.get?_eq_some.mp hp with ⟨hk, hget⟩
    have := csvLoadAux_index_override dOv start rows 1 ps
      (csvLoadFile_ok_aux dOv (some start) rows ps hcsv) k hk
    rw [hget] at this
    rw [this]
    ring
  · intro k p hp
    rcases List.get?_eq_some.mp hp with ⟨hk, hget⟩
    have := geojsonLoadAux_index_override dOv start features 1 qs
      (geojsonLoadFile_ok_aux dOv (some start) features qs hgeo) k hk
    rw [hget] at this
    rw [this]
    ring
  · intro k p hp
    have := nmeaLoadAux_index_override now dOv start lines 1 k p hp
    rw [this]
    ring

/-- Witness for `index_override_renumbers` with `index=100` and one-point
routes. -/
theorem index_override_renumbers_witness :
    (parseCommonParams [lit "index=100", lit "route.csv"] =
      .ok (none, some 100, [lit "route.csv"])) ∧
    (csvLoadFile none (some 100) [[lit "1", lit "0", lit "0", lit "0", lit "0"]] =
      .ok [⟨100, 0, 0, 0, 0, epoch1970, 0, lit "auto", []⟩]) ∧
    (geojsonLoadFile none (some 100) [⟨lit "Point", [0, 0], {}⟩] =
      .ok [⟨100, 0, 0, 0, 0, epoch1970, 0, lit "auto", []⟩]) ∧
    ((∀ k p, ([⟨100, 0, 0, 0, 0, epoch1970, 0, lit "auto", []⟩] : List Position).get? k = some p →
        p.index = 100 + k) ∧
     (∀ k p, ([⟨100, 0, 0, 0, 0, epoch1970, 0, lit "auto", []⟩] : List Position).get? k = some p →
        p.index = 100 + k) ∧
     (∀ k p, (nmeaLoadAux loadClock none (some 100) 1 nmeaSampleLines).get? k = some p →
        p.index = 100 + k)) :=
  ⟨by rfl, by rfl, by rfl,
   index_override_renumbers [lit "index=100", lit "route.csv"] none 100 [lit "route.csv"]
     (by rfl) [[lit "1", lit "0", lit "0", lit "0", lit "0"]]
     [⟨100, 0, 0, 0, 0, epoch1970, 0, lit "auto", []⟩] (by rfl)
     [⟨lit "Point", [0, 0], {}⟩] [⟨100, 0, 0, 0, 0, epoch1970, 0, lit "auto", []⟩]
     (by rfl) loadClock nmeaSampleLines⟩

-- ### Checksum property (claim C5)

/-- Characters that may appear in a sentence body: 7-bit, and not the
checksum delimiter. -/
abbrev BodySafe (s : Str) : Prop := ∀ c ∈ s, c.toNat < 128 ∧ c ≠ '*'

theorem isDigitChar_bodySafe {c : Char} (h : isDigitChar c = true) :
    c.toNat < 128 ∧ c ≠ '*' := by
  simp only [isDigitChar, Bool.and_eq_true, decide_eq_true_eq] at h
  exact ⟨by omega, fun hc => by subst hc; exact absurd h (by decide)⟩

theorem bodySafe_of_all_digits {s : Str} (h : s.all isDigitChar = true) : BodySafe s :=
  fun c hc => isDigitChar_bodySafe (List.all_eq_true.mp h c hc)

theorem bodySafe_append {s t : Str} (hs : BodySafe s) (ht : BodySafe t) :
    BodySafe (s ++ t) := by
  intro c hc
  rcases List.mem_append.mp hc with h | h
  · exact hs c h
  · exact ht c h

theorem bodySafe_natDigits (n : Nat) : BodySafe (natDigits n) :=
  bodySafe_of_all_digits (natDigits_all_digits n)

theorem bodySafe_natPad (w n : Nat) : BodySafe (natPad w n) :=
  bodySafe_of_all_digits (natPad_all_digits w n)

theorem bodySafe_replicate_zero (k : Nat) : BodySafe (List.replicate k '0') := by
  intro c hc
  rw [List.eq_of_mem_replicate hc]
  exact ⟨by decide, by decide⟩

theorem bodySafe_take {s : Str} (hs : BodySafe s) (k : Nat) : BodySafe (s.take k) :=
  fun c hc => hs c (List.mem_of_mem_take hc)

theorem bodySafe_fmtFloat (decs width : Nat) (q : ℚ) : BodySafe (fmtFloat decs width q) := by
  rw [fmtFloat]
  have hdp : BodySafe (natDigits ((round (q * (10 : ℚ) ^ decs)).natAbs / 10 ^ decs) ++
      (if decs = 0 then [] else '.' :: natPad decs ((round (q * (10 : ℚ) ^ decs)).natAbs % 10 ^ decs))) := by
    refine bodySafe_append (bodySafe_natDigits _) ?_
    by_cases hd : decs = 0
    · rw [if_pos hd]
      intro c hc
      simp at hc
    · rw [if_neg hd]
      intro c hc
      rcases List.mem_cons.mp hc with h | h
      · subst h
        exact ⟨by decide, by decide⟩
      · exact bodySafe_natPad _ _ c h
  by_cases hneg : round (q * (10 : ℚ) ^ decs) < 0
  · rw [if_pos hneg]
    intro c hc
    rcases List.mem_cons.mp hc with h | h
    · subst h
      exact ⟨by decide, by decide⟩
    · exact bodySafe_append (bodySafe_replicate_zero _) hdp c h
  · rw [if_neg hneg]
    exact bodySafe_append (bodySafe_replicate_zero _) hdp

theorem bodySafe_timeField (t : PyDatetime) : BodySafe (timeField t) := by
  rw [timeField]
  refine bodySafe_append (bodySafe_append (bodySafe_append (bodySafe_natPad _ _)
    (bodySafe_natPad _ _)) (bodySafe_natPad _ _)) ?_
  intro c hc
  rcases List.mem_cons.mp hc with h | h
  · subst h
    exact ⟨by decide, by decide⟩
  · exact bodySafe_take (bodySafe_natPad _ _) _ c h

theorem bodySafe_dateField (t : PyDatetime) : BodySafe (dateField t) := by
  rw [dateField]
  exact bodySafe_append (bodySafe_append (bodySafe_natPad _ _) (bodySafe_natPad _ _))
    (bodySafe_natPad _ _)

theorem bodySafe_coords (lat lon : ℚ) :
    BodySafe (format_coords lat lon).1 ∧ BodySafe (format_coords lat lon).2.1 ∧
    BodySafe (format_coords lat lon).2.2.1 ∧ BodySafe (format_coords lat lon).2.2.2 := by
  rw [format_coords]
  refine ⟨bodySafe_append (bodySafe_natPad _ _) (bodySafe_fmtFloat _ _ _), ?_,
    bodySafe_append (bodySafe_natPad _ _) (bodySafe_fmtFloat _ _ _), ?_⟩
  · by_cases h : 0 ≤ lat
    · simp only [if_pos h]
      intro c hc
      rcases List.mem_singleton.mp hc with rfl
      exact ⟨by decide, by decide⟩
    · simp only [if_neg h]
      intro c hc
      rcases List.mem_singleton.mp hc with rfl
      exact ⟨by decide, by decide⟩
  · by_cases h : 0 ≤ lon
    · simp only [if_pos h]
      intro c hc
      rcases List.mem_singleton.mp hc with rfl
      exact ⟨by decide, by decide⟩
    · simp only [if_neg h]
      intro c hc
      rcases List.mem_singleton.mp hc with rfl
      exact ⟨by decide, by decide⟩

theorem bodySafe_joinFields (fields : List Str) (h : ∀ f ∈ fields, BodySafe f) :
    BodySafe (joinFields fields) := by
  induction fields with
  | nil => intro c hc; simp [joinFields] at hc
  | cons f rest ih =>
    match rest with
    | [] => exact h f (by simp)
    | g :: rest2 =>
      rw [joinFields]
      refine bodySafe_append (h f (by simp)) ?_
      intro c hc
      rcases List.mem_cons.mp hc with hcm | hcm
      · subst hcm
        exact ⟨by decide, by decide⟩
      · exact ih (fun x hx => h x (by simp [hx])) c hcm

theorem xorChecksum_lt_128 (s : Str) (h : ∀ c ∈ s, c.toNat < 128) :
    xorChecksum s < 128 := by
  have aux : ∀ (t : Str) (acc : Nat), (∀ c ∈ t, c.toNat < 128) → acc < 128 →
      t.foldl (fun a c => Nat.xor a c.toNat) acc < 128 := by
    intro t
    induction t with
    | nil => intro acc _ hacc; exact hacc
    | cons c rest ih =>
      intro acc ht hacc
      rw [List.foldl_cons]
      exact ih _ (fun x hx => ht x (by simp [hx]))
        (Nat.xor_lt_two_pow (n := 7) hacc (ht c (by simp)))
  exact aux s 0 h (by norm_num)

theorem takeWhile_append_no_star (b r : Str) (h : ∀ c ∈ b, c ≠ '*') :
    (b ++ '*' :: r).takeWhile (fun c => c != '*') = b := by
  induction b with
  | nil => simp [List.takeWhile]
  | cons c rest ih =>
    have hc : (c != '*') = true := bne_iff_ne.mpr (h c (by simp))
    simp only [List.cons_append, List.takeWhile_cons, hc, if_true]
    rw [ih (fun x hx => h x (by simp [hx]))]

theorem dropWhile_append_no_star (b r : Str) (h : ∀ c ∈ b, c ≠ '*') :
    (b ++ '*' :: r).dropWhile (fun c => c != '*') = '*' :: r := by
  induction b with
  | nil => simp [List.dropWhile]
  | cons c rest ih =>
    have hc : (c != '*') = true := bne_iff_ne.mpr (h c (by simp))
    simp only [List.cons_append, List.dropWhile_cons, hc, if_true]
    exact ih (fun x hx => h x (by simp [hx]))

theorem hexDigits_eq (n : Nat) :
    hexDigits n = if n = 0 then ['0'] else ((Nat.digits 16 n).map hexDigitOfNat).reverse := by
  rw [hexDigits, digitsFuel_eq_digits 16 (by norm_num) n n le_rfl]

theorem hexDigits_length_le {n : Nat} (h : n < 256) : (hexDigits n).length ≤ 2 := by
  by_cases h0 : n = 0
  · subst h0; simp [hexDigits_eq]
  · have hlen : (Nat.digits 16 n).length = Nat.log 16 n + 1 :=
      Nat.digits_len 16 n (by norm_num) h0
    have hlog : Nat.log 16 n < 2 :=
      (Nat.lt_pow_iff_log_lt (b := 16) (by norm_num) h0).mp (by norm_num; omega)
    rw [hexDigits_eq]
    simp only [h0, if_false, List.length_reverse, List.length_map]
    omega

theorem hex2_length {n : Nat} (h : n < 256) : (hex2 n).length = 2 := by
  have h1 : (hexDigits n).length ≤ 2 := hexDigits_length_le h
  have h2 : hexDigits n ≠ [] := by
    by_cases h0 : n = 0
    · subst h0; simp [hexDigits_eq]
    · rw [hexDigits_eq]
      simp only [h0, if_false]
      intro hc
      have hnil : Nat.digits 16 n = [] := by
        have := congrArg List.length hc
        simp at this
        exact List.length_eq_zero.mp (by simpa using this)
      exact (Nat.digits_ne_nil_iff_ne_zero.mpr h0) hnil
  have h3 : 1 ≤ (hexDigits n).length := by
    cases he : hexDigits n with
    | nil => exact absurd he h2
    | cons a t => simp
  rw [hex2]
  simp only [List.length_append, List.length_replicate]
  omega

/-- The characters of a sentence strictly between the leading `$` and the
first `*` (for encoder output, the trailing `*`: the body is `*`-free). -/
def sentenceBody (s : Str) : Str := (s.drop 1).takeWhile (fun c => c != '*')

/-- The two characters following the `*` of a sentence. -/
def checksumDigitsOf (s : Str) : Str :=
  (((s.drop 1).dropWhile (fun c => c != '*')).drop 1).take 2

theorem bodySafe_ggaFields (p : Position) : ∀ f ∈ encodeGGAFields p, BodySafe f := by
  intro f hf
  rw [encodeGGAFields] at hf
  simp only [List.mem_cons, List.not_mem_nil, or_false] at hf
  rcases hf with rfl | rfl | rfl | rfl | rfl | rfl | rfl | rfl | rfl | rfl | rfl | rfl | rfl | rfl | rfl
  · decide
  · exact bodySafe_timeField p.time
  · exact (bodySafe_coords p.lat p.lon).1
  · exact (bodySafe_coords p.lat p.lon).2.1
  · exact (bodySafe_coords p.lat p.lon).2.2.1
  · exact (bodySafe_coords p.lat p.lon).2.2.2
  · decide
  · decide
  · decide
  · exact bodySafe_fmtFloat 1 0 p.elevation
  · decide
  · decide
  · decide
  · decide
  · decide

theorem bodySafe_rmcFields (p : Position) : ∀ f ∈ encodeRMCFields p, BodySafe f := by
  intro f hf
  rw [encodeRMCFields] at hf
  simp only [List.mem_cons, List.not_mem_nil, or_false] at hf
  rcases hf with rfl | rfl | rfl | rfl | rfl | rfl | rfl | rfl | rfl | rfl | rfl | rfl | rfl
  · decide
  · exact bodySafe_timeField p.time
  · decide
  · exact (bodySafe_coords p.lat p.lon).1
  · exact (bodySafe_coords p.lat p.lon).2.1
  · exact (bodySafe_coords p.lat p.lon).2.2.1
  · exact (bodySafe_coords p.lat p.lon).2.2.2
  · exact bodySafe_fmtFloat 1 0 _
  · decide
  · exact bodySafe_dateField p.time
  · decide
  · decide
  · decide

theorem frame_checksum (body : Str) (hsafe : BodySafe body) :
    calculate_checksum (sentenceBody (frame body)) = checksumDigitsOf (frame body) ∧
    (checksumDigitsOf (frame body)).length = 2 ∧
    sentenceBody (frame body) = body := by
  have hxor : xorChecksum body < 128 :=
    xorChecksum_lt_128 body (fun c hc => (hsafe c hc).1)
  have hstar : ∀ c ∈ body, c ≠ '*' := fun c hc => (hsafe c hc).2
  have hdrop : (frame body).drop 1 = body ++ '*' :: (calculate_checksum body ++ ['\r', '\n']) := by
    rw [frame]
    rfl
  have hbody : sentenceBody (frame body) = body := by
    rw [sentenceBody, hdrop, takeWhile_append_no_star body _ hstar]
  have hcslen : (calculate_checksum body).length = 2 :=
    hex2_length (by calc xorChecksum body < 128 := hxor
                      _ < 256 := by norm_num)
  have hdigits : checksumDigitsOf (frame body) = calculate_checksum body := by
    rw [checksumDigitsOf, hdrop, dropWhile_append_no_star body _ hstar]
    rw [List.drop_one, List.tail_cons, ← hcslen, List.take_left]
  refine ⟨?_, ?_, hbody⟩
  · rw [hbody, hdigits]
  · rw [hdigits, hcslen]

/-- Claim C5: for every sentence the encoder produces (both kinds, any
Position), XOR-ing the bytes strictly between the leading `$` and the trailing
`*` and rendering them as two uppercase hex digits reproduces exactly the two
characters that follow the `*`. -/
theorem checksum_property (p : Position) :
    calculate_checksum (sentenceBody (encode_gga p)) = checksumDigitsOf (encode_gga p) ∧
    (checksumDigitsOf (encode_gga p)).length = 2 ∧
    calculate_checksum (sentenceBody (encode_rmc p)) = checksumDigitsOf (encode_rmc p) ∧
    (checksumDigitsOf (encode_rmc p)).length = 2 := by
  have hg := frame_checksum (joinFields (encodeGGAFields p))
    (bodySafe_joinFields _ (bodySafe_ggaFields p))
  have hr := frame_checksum (joinFields (encodeRMCFields p))
    (bodySafe_joinFields _ (bodySafe_rmcFields p))
  exact ⟨hg.1, hg.2.1, hr.1, hr.2.1⟩

-- ### Decode ignores the checksum (claim C10)

theorem dropWhile_append_stop (p : Char → Bool) (u v : Str) (c : Char) (hc : p c = false) :
    (u ++ c :: v).dropWhile p = u.dropWhile p ++ c :: v := by
  induction u with
  | nil => simp [List.dropWhile, hc]
  | cons a u ih =>
    by_cases ha : p a = true
    · simp only [List.cons_append, List.dropWhile_cons, ha, if_true]
      exact ih
    · have ha2 : p a = false := by simpa using ha
      simp [List.dropWhile_cons, ha2]

theorem dropTrail_append_star (x r : Str) :
    dropTrail isSpaceChar (x ++ '*' :: r) = x ++ '*' :: dropTrail isSpaceChar r := by
  rw [dropTrail, dropTrail]
  rw [show (x ++ '*' :: r).reverse = r.reverse ++ '*' :: x.reverse by
    rw [List.reverse_append, List.reverse_cons, List.append_assoc]
    rfl]
  rw [dropWhile_append_stop isSpaceChar r.reverse x.reverse '*' (by decide)]
  rw [List.reverse_append, List.reverse_cons, List.append_assoc, List.reverse_reverse]
  rfl

theorem pyStrip_dollar_star (t r : Str) :
    pyStrip (('$' :: t) ++ '*' :: r) = ('$' :: t) ++ '*' :: dropTrail isSpaceChar r := by
  rw [pyStrip]
  rw [show (('$' :: t) ++ '*' :: r).dropWhile isSpaceChar = ('$' :: t) ++ '*' :: r by
    rw [List.cons_append, List.dropWhile_cons, if_neg (by decide)]]
  rw [show ('$' :: t) ++ '*' :: r = ('$' :: t) ++ '*' :: r from rfl]
  exact dropTrail_append_star ('$' :: t) r

theorem truncAtStar_append (b r : Str) (h : '*' ∉ b) :
    truncAtStar (b ++ '*' :: r) = b := by
  rw [truncAtStar, if_pos (by simp : '*' ∈ b ++ '*' :: r)]
  exact takeWhile_append_no_star b r (fun c hc => fun hceq => h (hceq ▸ hc))

/-- Claim C10: the decoder truncates at the first `*` and never verifies the
checksum — two inputs identical up to the first `*` (in particular, the same
sentence with a correct and with a wrong checksum) decode identically. -/
theorem decode_ignores_checksum (now : PyDatetime) (a r1 r2 : Str) (h : '*' ∉ a) :
    decode now (a ++ '*' :: r1) = decode now (a ++ '*' :: r2) := by
  rcases a with _ | ⟨c, t⟩
  · rfl
  · by_cases hc : c = '$'
    · subst hc
      rw [decode, decode]
      have hsplit : ∀ r : Str, preprocess (('$' :: t) ++ '*' :: r) = pySplit ',' t := by
        intro r
        rw [preprocess, pyStrip_dollar_star t r,
          truncAtStar_append ('$' :: t) (dropTrail isSpaceChar r)
            (by simpa using fun hm => h (List.mem_cons_of_mem '$' hm))]
        rfl
      rw [show (('$' :: t) ++ '*' :: r1).head? = some '$' from rfl,
        show (('$' :: t) ++ '*' :: r2).head? = some '$' from rfl]
      rw [if_pos rfl, if_pos rfl, hsplit r1, hsplit r2]
    · rw [decode, decode]
      rw [show ((c :: t) ++ '*' :: r1).head? = some c from rfl,
        show ((c :: t) ++ '*' :: r2).head? = some c from rfl]
      rw [if_neg (by simpa using hc), if_neg (by simpa using hc)]

/-- Witness for `decode_ignores_checksum`: the same RMC sentence with two
different trailing checksums decodes identically (and successfully). -/
theorem decode_ignores_checksum_witness :
    ('*' ∉ lit "$GPRMC,120000,A,,,,,,,010124,,,A") ∧
    decode loadClock (lit "$GPRMC,120000,A,,,,,,,010124,,,A" ++ '*' :: lit "00") =
      decode loadClock (lit "$GPRMC,120000,A,,,,,,,010124,,,A" ++ '*' :: lit "FF") :=
  ⟨by decide,
   decode_ignores_checksum loadClock (lit "$GPRMC,120000,A,,,,,,,010124,,,A")
     (lit "00") (lit "FF") (by decide)⟩

-- ### Concrete CSV scenario (claim C9)

/-- The C9 CSV row, as the cells `csv.reader` yields them (quotes around
`Start` already stripped by the CSV parser). -/
def c9row : List Str := [lit "1", lit "59.9343", lit "30.3351", lit "10.0", lit "5.5",
  lit "2.0", lit "manual", lit "Start"]

/-- The Position the spec expects from loading `c9row` with no overrides. -/
def c9pos : Position := ⟨1, 599343/10000, 303351/10000, 10, 11/2, epoch1970, 2,
  lit "manual", lit "Start"⟩

theorem csv_c9_load : csvLoadFile none none [c9row] = .ok [c9pos] := by
  have hf1 : pyFloat? (lit "59.9343") = some (599343/10000 : ℚ) := by
    simp [pyFloat?, pyFloatMag?, pyFloatBody?, breakAt, parseNat, isDigitChar, lit]
    try norm_num
  have hf2 : pyFloat? (lit "30.3351") = some (303351/10000 : ℚ) := by
    simp [pyFloat?, pyFloatMag?, pyFloatBody?, breakAt, parseNat, isDigitChar, lit]
    try norm_num
  have hf3 : pyFloat? (lit "10.0") = some (10 : ℚ) := by
    simp [pyFloat?, pyFloatMag?, pyFloatBody?, breakAt, parseNat, isDigitChar, lit]
    try norm_num
  have hf4 : pyFloat? (lit "5.5") = some (11/2 : ℚ) := by
    simp [pyFloat?, pyFloatMag?, pyFloatBody?, breakAt, parseNat, isDigitChar, lit]
    try norm_num
  have hf5 : pyFloat? (lit "2.0") = some (2 : ℚ) := by
    simp [pyFloat?, pyFloatMag?, pyFloatBody?, breakAt, parseNat, isDigitChar, lit]
    try norm_num
  simp only [csvLoadFile, csvLoadAux, c9row]
  simp
  rw [hf1, hf2, hf3, hf4, hf5]
  simp [applyCommonParams, c9pos]
  rw [show List.head? (lit "1") = some '1' from rfl, if_neg (by decide)]
  dsimp only
  rw [if_neg (by simp)]

theorem c9_lat_field : (encodeGGAFields c9pos).getD 2 [] = lit "5956.058000" := by
  have htr : pyTrunc (599343/10000 : ℚ) = 59 := by
    rw [pyTrunc, if_pos (by norm_num), Int.floor_eq_iff]
    constructor <;> push_cast <;> norm_num
  have h2 : round (|(599343/10000 : ℚ) - ((59 : Int) : ℚ)| * 60 * (10 : ℚ) ^ (6 : Nat)) =
      56058000 := by
    rw [show |(599343/10000 : ℚ) - ((59 : Int) : ℚ)| * 60 * (10 : ℚ) ^ (6 : Nat) =
        56058000 by
      rw [abs_of_nonneg (by push_cast; norm_num)]
      push_cast
      norm_num]
    rw [round_eq, Int.floor_eq_iff]
    constructor <;> push_cast <;> norm_num
  simp only [encodeGGAFields, format_coords, c9pos, htr]
  simp only [List.getD_cons_succ, List.getD_cons_zero]
  simp only [fmtFloat, h2]
  decide

theorem c9_lon_field : (encodeGGAFields c9pos).getD 4 [] = lit "03020.106000" := by
  have htr : pyTrunc (303351/10000 : ℚ) = 30 := by
    rw [pyTrunc, if_pos (by norm_num), Int.floor_eq_iff]
    constructor <;> push_cast <;> norm_num
  have h2 : round (|(303351/10000 : ℚ) - ((30 : Int) : ℚ)| * 60 * (10 : ℚ) ^ (6 : Nat)) =
      20106000 := by
    rw [show |(303351/10000 : ℚ) - ((30 : Int) : ℚ)| * 60 * (10 : ℚ) ^ (6 : Nat) =
        20106000 by
      rw [abs_of_nonneg (by push_cast; norm_num)]
      push_cast
      norm_num]
    rw [round_eq, Int.floor_eq_iff]
    constructor <;> push_cast <;> norm_num
  simp only [encodeGGAFields, format_coords, c9pos, htr]
  simp only [List.getD_cons_succ, List.getD_cons_zero]
  simp only [fmtFloat, h2]
  decide

/-- Claim C9: loading the CSV row
`1,59.9343,30.3351,10.0,5.5,2.0,manual,"Start"` with no overrides produces
exactly the expected Position, and encoding it yields a fix sentence whose
latitude field is `5956.058000` with hemisphere `N` and whose longitude field
is `03020.106000` with hemisphere `E`. -/
theorem csv_row_concrete_scenario :
    csvLoadFile none none [c9row] = .ok [c9pos] ∧
    c9pos.index = 1 ∧ c9pos.lat = 599343/10000 ∧ c9pos.lon = 303351/10000 ∧
    c9pos.speed = 10 ∧ c9pos.elevation = 11/2 ∧ c9pos.duration = 2 ∧
    c9pos.transition = lit "manual" ∧ c9pos.description = lit "Start" ∧
    encode_gga c9pos = frame (joinFields (encodeGGAFields c9pos)) ∧
    (encodeGGAFields c9pos).getD 2 [] = lit "5956.058000" ∧
    (encodeGGAFields c9pos).getD 3 [] = lit "N" ∧
    (encodeGGAFields c9pos).getD 4 [] = lit "03020.106000" ∧
    (encodeGGAFields c9pos).getD 5 [] = lit "E" := by
  refine ⟨csv_c9_load, rfl, by norm_num [c9pos], by norm_num [c9pos], by norm_num [c9pos],
    by norm_num [c9pos], by norm_num [c9pos], rfl, rfl, rfl, c9_lat_field, ?_, c9_lon_field, ?_⟩
  · simp only [encodeGGAFields, format_coords, c9pos]
    simp only [List.getD_cons_succ, List.getD_cons_zero]
    rw [if_pos (by norm_num)]
  · simp only [encodeGGAFields, format_coords, c9pos]
    simp only [List.getD_cons_succ, List.getD_cons_zero]
    rw [if_pos (by norm_num)]

-- ### Decode failure characterisation (claim C6)

theorem pySplit_ne_nil (sep : Char) (s : Str) : pySplit sep s ≠ [] := by
  induction s with
  | nil => simp [pySplit]
  | cons c r ih =>
    rw [pySplit]
    rcases hq : pySplit sep r with _ | ⟨f, fs⟩
    · exact absurd hq ih
    · by_cases hc : c = sep <;> simp [hc]

/-- The recognised recommended-minimum sentence type prefixes. -/
def rmcTypeNames : List Str := [lit "GPRMC", lit "RMC", lit "GNRMC"]

/-- The recognised fix sentence type prefixes. -/
def ggaTypeNames : List Str := [lit "GPGGA", lit "GGA", lit "GNGGA"]

/-- Spec-side failure set of `decode`, following the words of the amended
claim C6: decode fails exactly when the line does not start with `$`, or the
sentence-type prefix is unrecognised, or the field count is below ten, or (for
the recommended-minimum sentence) the validity flag is not `A`, or a
coordinate / speed / elevation field fails to parse as a number, or no
parseable timestamp can be extracted. -/
def decodeFailsSpec (now : PyDatetime) (line : Str) : Prop :=
  line.head? ≠ some '$' ∨
  ((preprocess line).getD 0 [] ∉ rmcTypeNames ∧ (preprocess line).getD 0 [] ∉ ggaTypeNames) ∨
  ((preprocess line).getD 0 [] ∈ rmcTypeNames ∧
    ((preprocess line).length < 10 ∨ (preprocess line).getD 2 [] ≠ lit "A" ∨
     parseLat? ((preprocess line).getD 3 []) ((preprocess line).getD 4 []) = none ∨
     parseLon? ((preprocess line).getD 5 []) ((preprocess line).getD 6 []) = none ∨
     ((preprocess line).getD 7 [] ≠ [] ∧ pyFloat? ((preprocess line).getD 7 []) = none) ∨
     parseDatetime? now ((preprocess line).getD 1 []) (some ((preprocess line).getD 9 [])) = none)) ∨
  ((preprocess line).getD 0 [] ∈ ggaTypeNames ∧
    ((preprocess line).length < 10 ∨
     parseLat? ((preprocess line).getD 2 []) ((preprocess line).getD 3 []) = none ∨
     parseLon? ((preprocess line).getD 4 []) ((preprocess line).getD 5 []) = none ∨
     ((preprocess line).getD 9 [] ≠ [] ∧ pyFloat? ((preprocess line).getD 9 []) = none) ∨
     parseDatetime? now ((preprocess line).getD 1 []) none = none))

theorem decode_fails_iff (now : PyDatetime) (line : Str) :
    (∃ e, decode now line = .error e) ↔ decodeFailsSpec now line := by
  rw [decode, decodeFailsSpec]
  by_cases hh : line.head? = some '$'
  · rw [if_pos hh]
    simp only [hh, ne_eq, not_true_eq_false, false_or]
    rcases hfld : preprocess line with _ | ⟨f0, rest⟩
    · exact absurd hfld (pySplit_ne_nil ',' _)
    rw [decodeFields]
    simp only [List.getD_cons_zero, List.getD_cons_succ, List.length_cons,
      rmcTypeNames, ggaTypeNames, List.mem_cons, List.not_mem_nil, or_false]
    by_cases hrmc : f0 = lit "GPRMC" ∨ f0 = lit "RMC" ∨ f0 = lit "GNRMC"
    · rw [if_pos hrmc]
      by_cases hbad : rest.length + 1 < 10 ∨ rest.getD 1 [] ≠ lit "A"
      · rw [if_pos hbad]
        exact ⟨fun _ => Or.inr (Or.inl ⟨hrmc, by tauto⟩), fun _ => ⟨_, rfl⟩⟩
      rw [if_neg hbad]
      rcases hlat : parseLat? (rest.getD 2 []) (rest.getD 3 []) with _ | lat
      · exact ⟨fun _ => Or.inr (Or.inl ⟨hrmc, Or.inr (Or.inr (Or.inl rfl))⟩),
          fun _ => ⟨_, rfl⟩⟩
      rcases hlon : parseLon? (rest.getD 4 []) (rest.getD 5 []) with _ | lon
      · exact ⟨fun _ => Or.inr (Or.inl ⟨hrmc, Or.inr (Or.inr (Or.inr (Or.inl rfl)))⟩),
          fun _ => ⟨_, rfl⟩⟩
      rcases hspd : (if rest.getD 6 [] = [] then some (0 : ℚ)
          else (pyFloat? (rest.getD 6 [])).map (fun k => k * (1852 / 1000 : ℚ))) with _ | spd
      · have hsp2 : rest.getD 6 [] ≠ [] ∧ pyFloat? (rest.getD 6 []) = none := by
          by_cases he : rest.getD 6 [] = []
          · rw [if_pos he] at hspd
            exact absurd hspd (by simp)
          · rw [if_neg he] at hspd
            exact ⟨he, Option.map_eq_none.mp hspd⟩
        exact ⟨fun _ => Or.inr (Or.inl ⟨hrmc,
          Or.inr (Or.inr (Or.inr (Or.inr (Or.inl hsp2))))⟩), fun _ => ⟨_, rfl⟩⟩
      rcases hdt : parseDatetime? now (rest.getD 0 []) (some (rest.getD 8 [])) with _ | dt
      · exact ⟨fun _ => Or.inr (Or.inl ⟨hrmc,
          Or.inr (Or.inr (Or.inr (Or.inr (Or.inr rfl))))⟩), fun _ => ⟨_, rfl⟩⟩
      · push_neg at hbad
        have hgga2 : ¬(f0 = lit "GPGGA" ∨ f0 = lit "GGA" ∨ f0 = lit "GNGGA") := by
          rcases hrmc with rfl | rfl | rfl <;> decide
        have hsp3 : ¬(rest.getD 6 [] ≠ [] ∧ pyFloat? (rest.getD 6 []) = none) := by
          rintro ⟨hne, hnone⟩
          rw [if_neg hne] at hspd
          rw [hnone] at hspd
          exact absurd hspd (by simp)
        constructor
        · rintro ⟨e, he⟩
          exact absurd he (by simp)
        · intro hd
          exfalso
          rcases hd with ⟨h1, _⟩ | ⟨_, h2⟩ | ⟨h1, _⟩
          · exact h1 hrmc
          · rcases h2 with h2 | h2 | h2 | h2 | h2 | h2
            · omega
            · exact h2 hbad.2
            · exact absurd h2 (by simp)
            · exact absurd h2 (by simp)
            · exact hsp3 h2
            · exact absurd h2 (by simp)
          · exact hgga2 h1
    · rw [if_neg hrmc]
      by_cases hgga : f0 = lit "GPGGA" ∨ f0 = lit "GGA" ∨ f0 = lit "GNGGA"
      · rw [if_pos hgga]
        by_cases hbad : rest.length + 1 < 10
        · rw [if_pos hbad]
          exact ⟨fun _ => Or.inr (Or.inr ⟨hgga, Or.inl hbad⟩), fun _ => ⟨_, rfl⟩⟩
        rw [if_neg hbad]
        rcases hlat : parseLat? (rest.getD 1 []) (rest.getD 2 []) with _ | lat
        · exact ⟨fun _ => Or.inr (Or.inr ⟨hgga, Or.inr (Or.inl rfl)⟩), fun _ => ⟨_, rfl⟩⟩
        rcases hlon : parseLon? (rest.getD 3 []) (rest.getD 4 []) with _ | lon
        · exact ⟨fun _ => Or.inr (Or.inr ⟨hgga, Or.inr (Or.inr (Or.inl rfl))⟩),
            fun _ => ⟨_, rfl⟩⟩
        rcases helv : (if rest.getD 8 [] = [] then some (0 : ℚ)
            else pyFloat? (rest.getD 8 [])) with _ | elv
        · have hel2 : rest.getD 8 [] ≠ [] ∧ pyFloat? (rest.getD 8 []) = none := by
            by_cases he : rest.getD 8 [] = []
            · rw [if_pos he] at helv
              exact absurd helv (by simp)
            · rw [if_neg he] at helv
              exact ⟨he, helv⟩
          exact ⟨fun _ => Or.inr (Or.inr ⟨hgga, Or.inr (Or.inr (Or.inr (Or.inl hel2)))⟩),
            fun _ => ⟨_, rfl⟩⟩
        rcases hdt : parseDatetime? now (rest.getD 0 []) none with _ | dt
        · exact ⟨fun _ => Or.inr (Or.inr ⟨hgga, Or.inr (Or.inr (Or.inr (Or.inr rfl)))⟩),
            fun _ => ⟨_, rfl⟩⟩
        · have hel3 : ¬(rest.getD 8 [] ≠ [] ∧ pyFloat? (rest.getD 8 []) = none) := by
            rintro ⟨hne, hnone⟩
            rw [if_neg hne] at helv
            rw [hnone] at helv
            exact absurd helv (by simp)
          constructor
          · rintro ⟨e, he⟩
            exact absurd he (by simp)
          · intro hd
            exfalso
            rcases hd with ⟨_, h1⟩ | ⟨h1, _⟩ | ⟨_, h2⟩
            · exact h1 hgga
            · exact hrmc h1
            · rcases h2 with h2 | h2 | h2 | h2 | h2
              · omega
              · exact absurd h2 (by simp)
              · exact absurd h2 (by simp)
              · exact hel3 h2
              · exact absurd h2 (by simp)
      · rw [if_neg hgga]
        exact ⟨fun _ => Or.inl ⟨hrmc, hgga⟩, fun _ => ⟨_, rfl⟩⟩
  · rw [if_neg hh]
    exact ⟨fun _ => Or.inl hh, fun _ => ⟨_, rfl⟩⟩

/-- Claim C6 (amended): decode fails exactly when the line does not start with
`$`, or the sentence-type prefix is unrecognised, or the field count is below
ten, or (for the recommended-minimum sentence) the validity flag is not `A`,
or a coordinate / speed / elevation field fails to parse as a number, or no
parseable timestamp can be extracted — and on every other input it returns a
Position; in particular the two cited example lines fail. -/
theorem decode_failure_conditions :
    (∀ now line, (∃ e, decode now line = .error e) ↔ decodeFailsSpec now line) ∧
    decode loadClock (lit "$GPXXX,1,2,3*00") = .error (lit "Unsupported NMEA sentence type") ∧
    decode loadClock
        (lit "$GPRMC,120000.00,V,5956.058000,N,03020.106000,E,5.4,0.0,010124,,,A*00") =
      .error (lit "Invalid RMC sentence") :=
  ⟨decode_fails_iff, by rfl, by rfl⟩

/-- Claim C6 as stated is false: this line starts with `$`, has a supported
prefix, thirteen fields, validity flag `A` and a parseable timestamp — none of
the claim's failure conditions — yet decode fails, because the speed field
`xx` does not parse as a number. -/
theorem decode_fails_outside_listed_conditions :
    (lit "$GPRMC,120000,A,,,,,xx,0.0,010124,,,A").head? = some '$' ∧
    (preprocess (lit "$GPRMC,120000,A,,,,,xx,0.0,010124,,,A")).getD 0 [] = lit "GPRMC" ∧
    10 ≤ (preprocess (lit "$GPRMC,120000,A,,,,,xx,0.0,010124,,,A")).length ∧
    (preprocess (lit "$GPRMC,120000,A,,,,,xx,0.0,010124,,,A")).getD 2 [] = lit "A" ∧
    parseDatetime? loadClock
        ((preprocess (lit "$GPRMC,120000,A,,,,,xx,0.0,010124,,,A")).getD 1 [])
        (some ((preprocess (lit "$GPRMC,120000,A,,,,,xx,0.0,010124,,,A")).getD 9 [])) ≠
      none ∧
    decode loadClock (lit "$GPRMC,120000,A,,,,,xx,0.0,010124,,,A") =
      .error (lit "speed parse raised") :=
  ⟨by decide, by decide, by decide, by decide, by decide, by rfl⟩

-- ### Round-trip (claim C4): parsing back formatted numbers

theorem isDigitChar_not_special {c : Char} (h : isDigitChar c = true) :
    (c == '.') = false ∧ ((c == 'e' || c == 'E') = false) ∧ c ≠ '-' ∧ c ≠ '+' ∧
    (c == '=') = false ∧ c ≠ ',' := by
  simp only [isDigitChar, Bool.and_eq_true, decide_eq_true_eq] at h
  have key : ∀ d : Char, (d.toNat < 48 ∨ 57 < d.toNat) → c ≠ d := by
    intro d hd hc
    subst hc
    omega
  exact ⟨beq_eq_false_iff_ne.mpr (key '.' (by decide)),
    Bool.or_eq_false_iff.mpr ⟨beq_eq_false_iff_ne.mpr (key 'e' (by decide)),
      beq_eq_false_iff_ne.mpr (key 'E' (by decide))⟩,
    key '-' (by decide), key '+' (by decide),
    beq_eq_false_iff_ne.mpr (key '=' (by decide)), key ',' (by decide)⟩

theorem breakAt_none (p : Char → Bool) (s : Str) (h : ∀ c ∈ s, p c = false) :
    breakAt p s = (s, none) := by
  induction s with
  | nil => rfl
  | cons c r ih =>
    rw [breakAt, if_neg (by simp [h c (by simp)]), ih (fun x hx => h x (by simp [hx]))]

theorem breakAt_found (p : Char → Bool) (a t : Str) (c : Char)
    (ha : ∀ x ∈ a, p x = false) (hc : p c = true) :
    breakAt p (a ++ c :: t) = (a, some t) := by
  induction a with
  | nil => simp [breakAt, hc]
  | cons x r ih =>
    rw [List.cons_append, breakAt, if_neg (by simp [ha x (by simp)]),
      ih (fun y hy => ha y (by simp [hy]))]

theorem pyFloatBody?_fixed (a b : Str) (ha : a.all isDigitChar = true)
    (hb : b.all isDigitChar = true) (hane : a ≠ []) :
    pyFloatBody? (a ++ '.' :: b) = some ((parseNat a : ℚ) + (parseNat b : ℚ) / (10 : ℚ) ^ b.length) := by
  rw [pyFloatBody?]
  rw [breakAt_found (fun c => c == '.') a b '.'
    (fun x hx => (isDigitChar_not_special (List.all_eq_true.mp ha x hx)).1) (by decide)]
  simp only
  rw [if_pos ⟨⟨ha, hb⟩, Or.inl hane⟩]

theorem pyFloatMag?_no_exp (s : Str) (h : ∀ c ∈ s, (c == 'e' || c == 'E') = false) :
    pyFloatMag? s = pyFloatBody? s := by
  rw [pyFloatMag?, breakAt_none _ s h]

theorem pyFloat?_fixed (a b : Str) (ha : a.all isDigitChar = true)
    (hb : b.all isDigitChar = true) (hane : a ≠ []) :
    pyFloat? (a ++ '.' :: b) = some ((parseNat a : ℚ) + (parseNat b : ℚ) / (10 : ℚ) ^ b.length) := by
  have hexp : ∀ c ∈ a ++ '.' :: b, (c == 'e' || c == 'E') = false := by
    intro c hc
    rcases List.mem_append.mp hc with hm | hm
    · exact (isDigitChar_not_special (List.all_eq_true.mp ha c hm)).2.1
    · rcases List.mem_cons.mp hm with rfl | hm
      · decide
      · exact (isDigitChar_not_special (List.all_eq_true.mp hb c hm)).2.1
  rcases a with _ | ⟨c0, a0⟩
  · exact absurd rfl hane
  have hc0 : isDigitChar c0 = true := by
    have := List.all_eq_true.mp ha c0 (by simp)
    exact this
  rw [List.cons_append, pyFloat?]
  rw [if_neg (by
      have := (isDigitChar_not_special hc0).2.2.1
      simpa using this),
    if_neg (by
      have := (isDigitChar_not_special hc0).2.2.2.1
      simpa using this)]
  rw [← List.cons_append, pyFloatMag?_no_exp _ hexp]
  exact pyFloatBody?_fixed _ b ha hb hane

theorem pyInt?_digits (s : Str) (h : s.all isDigitChar = true) (hne : s ≠ []) :
    pyInt? s = some ((parseNat s : Int)) := by
  rcases s with _ | ⟨c0, r⟩
  · exact absurd rfl hne
  have hc0 : isDigitChar c0 = true := List.all_eq_true.mp h c0 (by simp)
  rw [pyInt?]
  rw [if_neg (by
      have := (isDigitChar_not_special hc0).2.2.1
      simpa using this),
    if_neg (by
      have := (isDigitChar_not_special hc0).2.2.2.1
      simpa using this),
    if_pos h]

theorem parseNat_lt_pow (s : Str) (h : s.all isDigitChar = true) :
    parseNat s < 10 ^ s.length := by
  have aux : ∀ (t : Str) (acc : Nat), t.all isDigitChar = true →
      t.foldl (fun a c => 10 * a + (c.toNat - 48)) acc < (acc + 1) * 10 ^ t.length := by
    intro t
    induction t with
    | nil => intro acc _; simpa using Nat.lt_succ_self acc
    | cons c r ih =>
      intro acc ht
      rw [List.foldl_cons]
      have hc : isDigitChar c = true := List.all_eq_true.mp ht c (by simp)
      have hd : c.toNat - 48 ≤ 9 := by
        simp only [isDigitChar, Bool.and_eq_true, decide_eq_true_eq] at hc
        omega
      have := ih (10 * acc + (c.toNat - 48)) (by
        rw [List.all_eq_true] at ht ⊢
        exact fun x hx => ht x (by simp [hx]))
      calc r.foldl (fun a c => 10 * a + (c.toNat - 48)) (10 * acc + (c.toNat - 48))
          < (10 * acc + (c.toNat - 48) + 1) * 10 ^ r.length := this
        _ ≤ (acc + 1) * 10 ^ (c :: r).length := by
            rw [List.length_cons, pow_succ]
            nlinarith [pow_pos (show 0 < 10 by norm_num) r.length]
  simpa using aux s 0 h

-- Splitting the encoded body recovers the field list.

theorem pySplit_no_sep (sep : Char) (s : Str) (h : ∀ c ∈ s, c ≠ sep) :
    pySplit sep s = [s] := by
  induction s with
  | nil => rfl
  | cons c r ih =>
    rw [pySplit, ih (fun x hx => h x (by simp [hx]))]
    dsimp only
    rw [if_neg (h c (by simp))]

theorem pySplit_append (sep : Char) (f t : Str) (hf : ∀ c ∈ f, c ≠ sep) :
    pySplit sep (f ++ sep :: t) = f :: pySplit sep t := by
  induction f with
  | nil =>
    rw [List.nil_append, pySplit]
    rcases hq : pySplit sep t with _ | ⟨g, gs⟩
    · exact absurd hq (pySplit_ne_nil sep t)
    · dsimp only
      rw [if_pos rfl]
  | cons c r ih =>
    rw [List.cons_append, pySplit, ih (fun x hx => hf x (by simp [hx]))]
    dsimp only
    rw [if_neg (hf c (by simp))]

/-- Fields never contain the comma separator. -/
abbrev NoComma (s : Str) : Prop := ∀ c ∈ s, c ≠ ','

theorem pySplit_joinFields (fields : List Str) (hne : fields ≠ [])
    (h : ∀ f ∈ fields, NoComma f) :
    pySplit ',' (joinFields fields) = fields := by
  induction fields with
  | nil => exact absurd rfl hne
  | cons f rest ih =>
    match rest with
    | [] => exact pySplit_no_sep ',' f (h f (by simp))
    | g :: rest2 =>
      rw [joinFields, pySplit_append ',' f _ (h f (by simp)),
        ih (by simp) (fun x hx => h x (by simp [hx]))]

theorem noComma_of_digits {s : Str} (h : s.all isDigitChar = true) : NoComma s :=
  fun c hc => (isDigitChar_not_special (List.all_eq_true.mp h c hc)).2.2.2.2.2

theorem noComma_append {s t : Str} (hs : NoComma s) (ht : NoComma t) : NoComma (s ++ t) := by
  intro c hc
  rcases List.mem_append.mp hc with h | h
  · exact hs c h
  · exact ht c h

theorem noComma_natDigits (n : Nat) : NoComma (natDigits n) :=
  noComma_of_digits (natDigits_all_digits n)

theorem noComma_natPad (w n : Nat) : NoComma (natPad w n) :=
  noComma_of_digits (natPad_all_digits w n)

theorem noComma_replicate_zero (k : Nat) : NoComma (List.replicate k '0') := by
  intro c hc
  rw [List.eq_of_mem_replicate hc]
  decide

theorem noComma_take {s : Str} (hs : NoComma s) (k : Nat) : NoComma (s.take k) :=
  fun c hc => hs c (List.mem_of_mem_take hc)

theorem noComma_fmtFloat (decs width : Nat) (q : ℚ) : NoComma (fmtFloat decs width q) := by
  rw [fmtFloat]
  have hdp : NoComma (natDigits ((round (q * (10 : ℚ) ^ decs)).natAbs / 10 ^ decs) ++
      (if decs = 0 then [] else '.' :: natPad decs ((round (q * (10 : ℚ) ^ decs)).natAbs % 10 ^ decs))) := by
    refine noComma_append (noComma_natDigits _) ?_
    by_cases hd : decs = 0
    · rw [if_pos hd]
      intro c hc
      simp at hc
    · rw [if_neg hd]
      intro c hc
      rcases List.mem_cons.mp hc with h | h
      · subst h
        decide
      · exact noComma_natPad _ _ c h
  by_cases hneg : round (q * (10 : ℚ) ^ decs) < 0
  · rw [if_pos hneg]
    intro c hc
    rcases List.mem_cons.mp hc with h | h
    · subst h
      decide
    · exact noComma_append (noComma_replicate_zero _) hdp c h
  · rw [if_neg hneg]
    exact noComma_append (noComma_replicate_zero _) hdp

theorem noComma_timeField (t : PyDatetime) : NoComma (timeField t) := by
  rw [timeField]
  refine noComma_append (noComma_append (noComma_append (noComma_natPad _ _)
    (noComma_natPad _ _)) (noComma_natPad _ _)) ?_
  intro c hc
  rcases List.mem_cons.mp hc with h | h
  · subst h
    decide
  · exact noComma_take (noComma_natPad _ _) _ c h

theorem noComma_dateField (t : PyDatetime) : NoComma (dateField t) := by
  rw [dateField]
  exact noComma_append (noComma_append (noComma_natPad _ _) (noComma_natPad _ _))
    (noComma_natPad _ _)

theorem noComma_coords (lat lon : ℚ) :
    NoComma (format_coords lat lon).1 ∧ NoComma (format_coords lat lon).2.1 ∧
    NoComma (format_coords lat lon).2.2.1 ∧ NoComma (format_coords lat lon).2.2.2 := by
  rw [format_coords]
  refine ⟨noComma_append (noComma_natPad _ _) (noComma_fmtFloat _ _ _), ?_,
    noComma_append (noComma_natPad _ _) (noComma_fmtFloat _ _ _), ?_⟩
  · by_cases h : 0 ≤ lat
    · simp only [if_pos h]
      intro c hc
      rcases List.mem_singleton.mp hc with rfl
      decide
    · simp only [if_neg h]
      intro c hc
      rcases List.mem_singleton.mp hc with rfl
      decide
  · by_cases h : 0 ≤ lon
    · simp only [if_pos h]
      intro c hc
      rcases List.mem_singleton.mp hc with rfl
      decide
    · simp only [if_neg h]
      intro c hc
      rcases List.mem_singleton.mp hc with rfl
      decide

theorem noComma_ggaFields (p : Position) : ∀ f ∈ encodeGGAFields p, NoComma f := by
  intro f hf
  rw [encodeGGAFields] at hf
  simp only [List.mem_cons, List.not_mem_nil, or_false] at hf
  rcases hf with rfl | rfl | rfl | rfl | rfl | rfl | rfl | rfl | rfl | rfl | rfl | rfl | rfl | rfl | rfl
  · decide
  · exact noComma_timeField p.time
  · exact (noComma_coords p.lat p.lon).1
  · exact (noComma_coords p.lat p.lon).2.1
  · exact (noComma_coords p.lat p.lon).2.2.1
  · exact (noComma_coords p.lat p.lon).2.2.2
  · decide
  · decide
  · decide
  · exact noComma_fmtFloat 1 0 p.elevation
  · decide
  · decide
  · decide
  · decide
  · decide

theorem noComma_rmcFields (p : Position) : ∀ f ∈ encodeRMCFields p, NoComma f := by
  intro f hf
  rw [encodeRMCFields] at hf
  simp only [List.mem_cons, List.not_mem_nil, or_false] at hf
  rcases hf with rfl | rfl | rfl | rfl | rfl | rfl | rfl | rfl | rfl | rfl | rfl | rfl | rfl
  · decide
  · exact noComma_timeField p.time
  · decide
  · exact (noComma_coords p.lat p.lon).1
  · exact (noComma_coords p.lat p.lon).2.1
  · exact (noComma_coords p.lat p.lon).2.2.1
  · exact (noComma_coords p.lat p.lon).2.2.2
  · exact noComma_fmtFloat 1 0 _
  · decide
  · exact noComma_dateField p.time
  · decide
  · decide
  · decide

-- The shape of the packed minutes field.

theorem fmtFloat_coord_shape (q : ℚ) (h0 : 0 ≤ q) (h1 : q < 99) :
    fmtFloat 6 9 q =
      natPad 2 ((round (q * (10 : ℚ) ^ (6 : Nat))).natAbs / 10 ^ 6) ++
        '.' :: natPad 6 ((round (q * (10 : ℚ) ^ (6 : Nat))).natAbs % 10 ^ 6) ∧
    (round (q * (10 : ℚ) ^ (6 : Nat))).natAbs / 10 ^ 6 < 100 ∧
    ((round (q * (10 : ℚ) ^ (6 : Nat))).natAbs : ℚ) = ((round (q * (10 : ℚ) ^ (6 : Nat)) : ℤ) : ℚ) := by
  have hq6 : (0 : ℚ) ≤ q * (10 : ℚ) ^ (6 : Nat) := by positivity
  have hn0 : 0 ≤ round (q * (10 : ℚ) ^ (6 : Nat)) := by
    rw [round_eq]
    exact Int.le_floor.mpr (by push_cast; linarith)
  have hnlt : round (q * (10 : ℚ) ^ (6 : Nat)) < 100000000 := by
    have hle : ((round (q * (10 : ℚ) ^ (6 : Nat)) : ℤ) : ℚ) < 100000000 := by
      rw [round_eq]
      calc ((⌊q * (10 : ℚ) ^ (6 : Nat) + 1 / 2⌋ : ℤ) : ℚ) ≤ q * (10 : ℚ) ^ (6 : Nat) + 1 / 2 :=
            Int.floor_le _
        _ < 100000000 := by nlinarith
    exact_mod_cast hle
  have habs : ((round (q * (10 : ℚ) ^ (6 : Nat))).natAbs : ℤ) = round (q * (10 : ℚ) ^ (6 : Nat)) :=
    Int.natAbs_of_nonneg hn0
  have hnatlt : (round (q * (10 : ℚ) ^ (6 : Nat))).natAbs < 100000000 := by
    omega
  have hm1 : (round (q * (10 : ℚ) ^ (6 : Nat))).natAbs / 10 ^ 6 < 100 := by
    rw [show (10 : Nat) ^ 6 = 1000000 from by norm_num]
    omega
  have hm2 : (round (q * (10 : ℚ) ^ (6 : Nat))).natAbs % 10 ^ 6 < 10 ^ 6 := by
    exact Nat.mod_lt _ (by norm_num)
  refine ⟨?_, hm1, by
    rw [Int.cast_natAbs, abs_of_nonneg hn0]⟩
  rw [fmtFloat, if_neg (by omega)]
  have hlen1 : (natDigits ((round (q * (10 : ℚ) ^ (6 : Nat))).natAbs / 10 ^ 6)).length ≤ 2 :=
    natDigits_length_le (by norm_num) (by
      rw [show (10 : Nat) ^ 2 = 100 from by norm_num]
      exact hm1)
  have hlen6 : (natPad 6 ((round (q * (10 : ℚ) ^ (6 : Nat))).natAbs % 10 ^ 6)).length = 6 :=
    natPad_length (by norm_num) hm2
  rw [if_neg (by norm_num)]
  simp only [List.length_append, List.length_cons, hlen6]
  rw [show 9 - ((natDigits ((round (q * (10 : ℚ) ^ (6 : Nat))).natAbs / 10 ^ 6)).length + (6 + 1)) =
      2 - (natDigits ((round (q * (10 : ℚ) ^ (6 : Nat))).natAbs / 10 ^ 6)).length by omega]
  conv_rhs => rw [natPad, List.append_assoc]

-- Parsing a packed coordinate field back.

theorem parseCoordinate?_roundtrip (w d m1 m2 maxDeg : Nat) (hw : w = 2 ∨ w = 3)
    (hd : d < 10 ^ w) (hm1 : m1 < 100) (hm2 : m2 < 10 ^ 6) :
    parseCoordinate? (natPad w d ++ (natPad 2 m1 ++ '.' :: natPad 6 m2)) maxDeg =
      some ((d : ℚ) + ((m1 : ℚ) + (m2 : ℚ) / (10 : ℚ) ^ (6 : Nat)) / 60) := by
  have hw1 : 1 ≤ w := by omega
  have hlw : (natPad w d).length = w := natPad_length hw1 hd
  have hl2 : (natPad 2 m1).length = 2 := natPad_length (by norm_num) hm1
  have hl6 : (natPad 6 m2).length = 6 := natPad_length (by norm_num) hm2
  have hne : natPad w d ++ (natPad 2 m1 ++ '.' :: natPad 6 m2) ≠ [] := by
    intro hc
    exact natPad_ne_nil w d (List.append_eq_nil.mp hc).1
  rw [parseCoordinate?, if_neg hne, if_pos (by simp)]
  have hpre : ∀ x ∈ natPad w d ++ natPad 2 m1, (x == '.') = false := by
    intro x hx
    rcases List.mem_append.mp hx with h | h
    · exact (isDigitChar_not_special (List.all_eq_true.mp (natPad_all_digits w d) x h)).1
    · exact (isDigitChar_not_special (List.all_eq_true.mp (natPad_all_digits 2 m1) x h)).1
  have hbrk : breakAt (fun c => c == '.') (natPad w d ++ (natPad 2 m1 ++ '.' :: natPad 6 m2)) =
      (natPad w d ++ natPad 2 m1, some (natPad 6 m2)) := by
    rw [← List.append_assoc]
    exact breakAt_found _ _ _ '.' hpre (by decide)
  rw [hbrk]
  simp only [List.length_append, hlw, hl2]
  rw [if_pos (by omega)]
  have htake : (natPad w d ++ (natPad 2 m1 ++ '.' :: natPad 6 m2)).take (w + 2 - 2) =
      natPad w d := by
    rw [show w + 2 - 2 = w from by omega]
    exact List.take_left' hlw
  have hdrop : (natPad w d ++ (natPad 2 m1 ++ '.' :: natPad 6 m2)).drop (w + 2 - 2) =
      natPad 2 m1 ++ '.' :: natPad 6 m2 := by
    rw [show w + 2 - 2 = w from by omega]
    exact List.drop_left' hlw
  rw [htake, hdrop]
  rw [pyInt?_digits _ (natPad_all_digits w d) (natPad_ne_nil w d)]
  rw [pyFloat?_fixed _ _ (natPad_all_digits 2 m1) (natPad_all_digits 6 m2) (natPad_ne_nil 2 m1)]
  rw [parseNat_natPad, parseNat_natPad, parseNat_natPad, hl6]
  push_cast
  ring_nf

-- Truncation toward zero splits magnitude into degrees and a fraction.

theorem pyTrunc_spec (x : ℚ) :
    0 ≤ |x - (pyTrunc x : ℚ)| ∧ |x - (pyTrunc x : ℚ)| < 1 ∧
    |x| = ((pyTrunc x).natAbs : ℚ) + |x - (pyTrunc x : ℚ)| := by
  by_cases hx : 0 ≤ x
  · rw [pyTrunc, if_pos hx]
    have h1 : ((⌊x⌋ : ℤ) : ℚ) ≤ x := Int.floor_le x
    have h2 : x < ((⌊x⌋ : ℤ) : ℚ) + 1 := Int.lt_floor_add_one x
    have hf0 : (0 : ℤ) ≤ ⌊x⌋ := Int.le_floor.mpr (by push_cast; linarith)
    have habs : ((⌊x⌋.natAbs : ℕ) : ℚ) = ((⌊x⌋ : ℤ) : ℚ) := by
      rw [Int.cast_natAbs, abs_of_nonneg hf0]
    rw [abs_of_nonneg (by linarith), abs_of_nonneg hx, habs]
    refine ⟨by linarith, by linarith, by ring⟩
  · push_neg at hx
    rw [pyTrunc, if_neg (by linarith)]
    have h1 : ((⌊-x⌋ : ℤ) : ℚ) ≤ -x := Int.floor_le (-x)
    have h2 : -x < ((⌊-x⌋ : ℤ) : ℚ) + 1 := Int.lt_floor_add_one (-x)
    have hf0 : (0 : ℤ) ≤ ⌊-x⌋ := Int.le_floor.mpr (by push_cast; linarith)
    have habs : (((-⌊-x⌋).natAbs : ℕ) : ℚ) = ((⌊-x⌋ : ℤ) : ℚ) := by
      rw [Int.cast_natAbs]
      push_cast
      rw [abs_neg, abs_of_nonneg (by exact_mod_cast hf0)]
    have hcast : ((-⌊-x⌋ : ℤ) : ℚ) = -((⌊-x⌋ : ℤ) : ℚ) := by push_cast; ring
    rw [hcast, habs]
    rw [show x - -((⌊-x⌋ : ℤ) : ℚ) = -(-x - ((⌊-x⌋ : ℤ) : ℚ)) by ring, abs_neg,
      abs_of_nonneg (by linarith), abs_of_neg hx]
    refine ⟨by linarith, by linarith, by ring⟩

-- Parsing back an encoded coordinate field recovers the magnitude within half
-- an ulp of the six-decimal minutes.

theorem parseCoordinate?_of_encoded (x : ℚ) (w maxDeg : Nat) (hw : w = 2 ∨ w = 3)
    (hdeg : (pyTrunc x).natAbs < 10 ^ w) :
    ∃ v : ℚ, parseCoordinate?
        (natPad w (pyTrunc x).natAbs ++ fmtFloat 6 9 (|x - (pyTrunc x : ℚ)| * 60)) maxDeg =
        some v ∧ abs (v - |x|) ≤ 1 / 120000000 ∧ 0 ≤ v := by
  obtain ⟨hf0, hf1, hsplit⟩ := pyTrunc_spec x
  set f := |x - (pyTrunc x : ℚ)| with hfdef
  have hmin0 : (0 : ℚ) ≤ f * 60 := by positivity
  have hminlt : f * 60 < 99 := by nlinarith
  obtain ⟨hshape, hm1, hcast⟩ := fmtFloat_coord_shape (f * 60) hmin0 hminlt
  set N := (round (f * 60 * (10 : ℚ) ^ (6 : Nat))).natAbs with hNdef
  rw [hshape]
  rw [parseCoordinate?_roundtrip w (pyTrunc x).natAbs (N / 10 ^ 6) (N % 10 ^ 6) maxDeg hw hdeg
    hm1 (Nat.mod_lt _ (by norm_num))]
  refine ⟨_, rfl, ?_, ?_⟩
  · have hNsum : ((N / 10 ^ 6 : ℕ) : ℚ) + ((N % 10 ^ 6 : ℕ) : ℚ) / (10 : ℚ) ^ (6 : Nat) =
        (N : ℚ) / (10 : ℚ) ^ (6 : Nat) := by
      rw [show (N : ℚ) = ((10 ^ 6 * (N / 10 ^ 6) + N % 10 ^ 6 : ℕ) : ℚ) by
        rw [Nat.div_add_mod]]
      push_cast
      field_simp
      ring
    rw [hNsum, hcast]
    have hround : |((round (f * 60 * (10 : ℚ) ^ (6 : Nat)) : ℤ) : ℚ) -
        f * 60 * (10 : ℚ) ^ (6 : Nat)| ≤ 1 / 2 := by
      rw [abs_sub_comm]
      exact abs_sub_round (f * 60 * (10 : ℚ) ^ (6 : Nat))
    rw [hsplit]
    have hgoal : ((pyTrunc x).natAbs : ℚ) +
        ((round (f * 60 * (10 : ℚ) ^ (6 : Nat)) : ℤ) : ℚ) / (10 : ℚ) ^ (6 : Nat) / 60 -
        (((pyTrunc x).natAbs : ℚ) + f) =
        (((round (f * 60 * (10 : ℚ) ^ (6 : Nat)) : ℤ) : ℚ) - f * 60 * (10 : ℚ) ^ (6 : Nat)) /
          ((10 : ℚ) ^ (6 : Nat) * 60) := by
      field_simp
      ring
    rw [hgoal, abs_div]
    rw [abs_of_pos (show (0 : ℚ) < (10 : ℚ) ^ (6 : Nat) * 60 by norm_num)]
    rw [div_le_iff (show (0 : ℚ) < (10 : ℚ) ^ (6 : Nat) * 60 by norm_num)]
    calc |((round (f * 60 * (10 : ℚ) ^ (6 : Nat)) : ℤ) : ℚ) - f * 60 * (10 : ℚ) ^ (6 : Nat)|
        ≤ 1 / 2 := hround
      _ ≤ 1 / 120000000 * ((10 : ℚ) ^ (6 : Nat) * 60) := by norm_num
  · have hN0 : (0 : ℚ) ≤ ((round (f * 60 * (10 : ℚ) ^ (6 : Nat)) : ℤ) : ℚ) := by
      rw [← hcast]
      positivity
    have : (0 : ℚ) ≤ ((N / 10 ^ 6 : ℕ) : ℚ) + ((N % 10 ^ 6 : ℕ) : ℚ) / (10 : ℚ) ^ (6 : Nat) := by
      positivity
    positivity

theorem pyTrunc_natAbs_le (x : ℚ) (B : Nat) (h : |x| ≤ (B : ℚ)) :
    (pyTrunc x).natAbs ≤ B := by
  obtain ⟨hf0, _, hsplit⟩ := pyTrunc_spec x
  have : ((pyTrunc x).natAbs : ℚ) ≤ (B : ℚ) := by
    rw [hsplit] at h
    linarith
  exact_mod_cast this

theorem parseLat?_encoded (lat lon : ℚ) (h1 : -90 ≤ lat) (h2 : lat ≤ 90) :
    ∃ v, parseLat? (format_coords lat lon).1 (format_coords lat lon).2.1 = some v ∧
      |v - lat| ≤ 1 / 120000000 := by
  have habs : |lat| ≤ (90 : ℚ) := abs_le.mpr ⟨h1, h2⟩
  have hdeg : (pyTrunc lat).natAbs < 10 ^ 2 :=
    lt_of_le_of_lt (pyTrunc_natAbs_le lat 90 (by exact_mod_cast habs)) (by norm_num)
  have hproj1 : (format_coords lat lon).1 =
      natPad 2 (pyTrunc lat).natAbs ++ fmtFloat 6 9 (|lat - (pyTrunc lat : ℚ)| * 60) := rfl
  have hproj2 : (format_coords lat lon).2.1 = (if 0 ≤ lat then lit "N" else lit "S") := rfl
  obtain ⟨v0, hv0, hb, hv0pos⟩ := parseCoordinate?_of_encoded lat 2 2 (Or.inl rfl) hdeg
  have hne1 : (format_coords lat lon).1 ≠ [] := by
    rw [hproj1]
    intro hc
    exact natPad_ne_nil 2 (pyTrunc lat).natAbs (List.append_eq_nil.mp hc).1
  have hne2 : (format_coords lat lon).2.1 ≠ [] := by
    rw [hproj2]
    by_cases h : 0 ≤ lat <;> simp [h, lit]
  rw [parseLat?, if_neg (by push_neg; exact ⟨hne1, hne2⟩)]
  rw [hproj1, hproj2, hv0]
  by_cases hs : 0 ≤ lat
  · rw [if_pos hs]
    refine ⟨v0, ?_, ?_⟩
    · simp [lit]
    · rw [abs_of_nonneg hs] at hb
      exact hb
  · rw [if_neg hs]
    refine ⟨-v0, ?_, ?_⟩
    · simp
    · push_neg at hs
      rw [abs_of_neg hs] at hb
      rw [show -v0 - lat = -(v0 - -lat) by ring, abs_neg]
      exact hb

theorem parseLon?_encoded (lat lon : ℚ) (h1 : -180 ≤ lon) (h2 : lon ≤ 180) :
    ∃ v, parseLon? (format_coords lat lon).2.2.1 (format_coords lat lon).2.2.2 = some v ∧
      |v - lon| ≤ 1 / 120000000 := by
  have habs : |lon| ≤ (180 : ℚ) := abs_le.mpr ⟨h1, h2⟩
  have hdeg : (pyTrunc lon).natAbs < 10 ^ 3 :=
    lt_of_le_of_lt (pyTrunc_natAbs_le lon 180 (by exact_mod_cast habs)) (by norm_num)
  have hproj1 : (format_coords lat lon).2.2.1 =
      natPad 3 (pyTrunc lon).natAbs ++ fmtFloat 6 9 (|lon - (pyTrunc lon : ℚ)| * 60) := rfl
  have hproj2 : (format_coords lat lon).2.2.2 = (if 0 ≤ lon then lit "E" else lit "W") := rfl
  obtain ⟨v0, hv0, hb, hv0pos⟩ := parseCoordinate?_of_encoded lon 3 3 (Or.inr rfl) hdeg
  have hne1 : (format_coords lat lon).2.2.1 ≠ [] := by
    rw [hproj1]
    intro hc
    exact natPad_ne_nil 3 (pyTrunc lon).natAbs (List.append_eq_nil.mp hc).1
  have hne2 : (format_coords lat lon).2.2.2 ≠ [] := by
    rw [hproj2]
    by_cases h : 0 ≤ lon <;> simp [h, lit]
  rw [parseLon?, if_neg (by push_neg; exact ⟨hne1, hne2⟩)]
  rw [hproj1, hproj2, hv0]
  by_cases hs : 0 ≤ lon
  · rw [if_pos hs]
    refine ⟨v0, ?_, ?_⟩
    · simp [lit]
    · rw [abs_of_nonneg hs] at hb
      exact hb
  · rw [if_neg hs]
    refine ⟨-v0, ?_, ?_⟩
    · simp
    · push_neg at hs
      rw [abs_of_neg hs] at hb
      rw [show -v0 - lon = -(v0 - -lon) by ring, abs_neg]
      exact hb

-- Parsing back a one-decimal formatted value.

theorem pyFloat?_fmtFloat1 (e : ℚ) :
    pyFloat? (fmtFloat 1 0 e) = some (((round (e * 10) : ℤ) : ℚ) / 10) := by
  have hmod : (round (e * 10)).natAbs % 10 ^ 1 < 10 := by
    have := Nat.mod_lt (round (e * 10)).natAbs (show 0 < 10 ^ 1 by norm_num)
    simpa using this
  have hsum : ((((round (e * 10)).natAbs / 10 ^ 1 : ℕ)) : ℚ) +
      (((round (e * 10)).natAbs % 10 ^ 1 : ℕ) : ℚ) / (10 : ℚ) ^ (1 : Nat) =
      ((round (e * 10)).natAbs : ℚ) / 10 := by
    rw [show ((round (e * 10)).natAbs : ℚ) =
        ((10 ^ 1 * ((round (e * 10)).natAbs / 10 ^ 1) + (round (e * 10)).natAbs % 10 ^ 1 : ℕ) : ℚ) by
      rw [Nat.div_add_mod]]
    push_cast
    field_simp
    ring
  have hb1 : (natPad 1 ((round (e * 10)).natAbs % 10 ^ 1)).length = 1 :=
    natPad_length (by norm_num) (by simpa using hmod)
  have hparse : pyFloat? (natDigits ((round (e * 10)).natAbs / 10 ^ 1) ++
      '.' :: natPad 1 ((round (e * 10)).natAbs % 10 ^ 1)) =
      some (((round (e * 10)).natAbs : ℚ) / 10) := by
    rw [pyFloat?_fixed _ _ (natDigits_all_digits _) (natPad_all_digits _ _) (natDigits_ne_nil _)]
    rw [parseNat_natDigits, parseNat_natPad, hb1]
    rw [← hsum]
  have hexp : ∀ c ∈ natDigits ((round (e * 10)).natAbs / 10 ^ 1) ++
      '.' :: natPad 1 ((round (e * 10)).natAbs % 10 ^ 1), (c == 'e' || c == 'E') = false := by
    intro c hc
    rcases List.mem_append.mp hc with hm | hm
    · exact (isDigitChar_not_special (List.all_eq_true.mp (natDigits_all_digits _) c hm)).2.1
    · rcases List.mem_cons.mp hm with rfl | hm
      · decide
      · exact (isDigitChar_not_special (List.all_eq_true.mp (natPad_all_digits _ _) c hm)).2.1
  have hparseMag : pyFloatMag? (natDigits ((round (e * 10)).natAbs / 10 ^ 1) ++
      '.' :: natPad 1 ((round (e * 10)).natAbs % 10 ^ 1)) =
      some (((round (e * 10)).natAbs : ℚ) / 10) := by
    rw [pyFloatMag?_no_exp _ hexp]
    rw [pyFloatBody?_fixed _ _ (natDigits_all_digits _) (natPad_all_digits _ _) (natDigits_ne_nil _)]
    rw [parseNat_natDigits, parseNat_natPad, hb1]
    rw [← hsum]
  by_cases hneg : round (e * 10) < 0
  · rw [fmtFloat]
    rw [show e * (10 : ℚ) ^ (1 : Nat) = e * 10 from by norm_num]
    rw [if_pos hneg]
    rw [show (0 : Nat) - (((natDigits ((round (e * 10)).natAbs / 10 ^ 1) ++
        (if (1 : Nat) = 0 then [] else '.' :: natPad 1 ((round (e * 10)).natAbs % 10 ^ 1))).length + 1)) = 0 from by omega]
    rw [List.replicate_zero, List.nil_append]
    rw [show (if (1 : Nat) = 0 then ([] : Str) else '.' :: natPad 1 ((round (e * 10)).natAbs % 10 ^ 1)) =
        '.' :: natPad 1 ((round (e * 10)).natAbs % 10 ^ 1) from by norm_num]
    rw [pyFloat?]
    rw [if_pos rfl]
    rw [hparseMag]
    rw [Option.map_some']
    congr 1
    have : ((round (e * 10)).natAbs : ℚ) = -((round (e * 10) : ℤ) : ℚ) := by
      rw [Int.cast_natAbs, abs_of_neg (by exact_mod_cast hneg)]
      push_cast
      ring
    rw [this]
    ring
  · rw [fmtFloat]
    rw [show e * (10 : ℚ) ^ (1 : Nat) = e * 10 from by norm_num]
    rw [if_neg hneg]
    rw [show (0 : Nat) - ((natDigits ((round (e * 10)).natAbs / 10 ^ 1) ++
        (if (1 : Nat) = 0 then [] else '.' :: natPad 1 ((round (e * 10)).natAbs % 10 ^ 1))).length) = 0 from by omega]
    rw [List.replicate_zero, List.nil_append]
    rw [show (if (1 : Nat) = 0 then ([] : Str) else '.' :: natPad 1 ((round (e * 10)).natAbs % 10 ^ 1)) =
        '.' :: natPad 1 ((round (e * 10)).natAbs % 10 ^ 1) from by norm_num]
    rw [hparse]
    congr 1
    have : ((round (e * 10)).natAbs : ℚ) = ((round (e * 10) : ℤ) : ℚ) := by
      rw [Int.cast_natAbs, abs_of_nonneg (by push_neg at hneg; exact_mod_cast hneg)]
    rw [this]

-- Parsing back the encoder's time and date fields.

theorem pyInt?_natPad (w n : Nat) : pyInt? (natPad w n) = some ((n : Int)) := by
  rw [pyInt?_digits (natPad w n) (natPad_all_digits w n) (natPad_ne_nil w n), parseNat_natPad]

theorem all_digits_take (s : Str) (h : s.all isDigitChar = true) (k : Nat) :
    (s.take k).all isDigitChar = true := by
  rw [List.all_eq_true] at h ⊢
  exact fun c hc => h c (List.mem_of_mem_take hc)

theorem isLeapYear_mod (y : Int) (h : isLeapYear y = true) :
    isLeapYear (y % 100 + 2000) = true := by
  simp only [isLeapYear, Bool.or_eq_true, Bool.and_eq_true, beq_iff_eq, bne_iff_ne] at h ⊢
  omega

theorem daysInMonth_indep (y z m : Int) (hm : m ≠ 2) :
    daysInMonth y m = daysInMonth z m := by
  rw [daysInMonth, daysInMonth, if_neg hm, if_neg hm]

theorem drop_take_decomp (a b c d : Str) (ha : a.length = 2) (hb : b.length = 2)
    (hc : c.length = 2) :
    (a ++ (b ++ (c ++ d))).take 2 = a ∧
    ((a ++ (b ++ (c ++ d))).drop 2).take 2 = b ∧
    ((a ++ (b ++ (c ++ d))).drop 4).take 2 = c := by
  have h2 : (a ++ (b ++ (c ++ d))).drop 2 = b ++ (c ++ d) := List.drop_left' ha
  have h4 : (a ++ (b ++ (c ++ d))).drop 4 = c ++ d := by
    rw [show (4 : Nat) = 2 + 2 from rfl, ← List.drop_drop, h2, List.drop_left' hb]
  exact ⟨List.take_left' ha, by rw [h2]; exact List.take_left' hb,
    by rw [h4]; exact List.take_left' hc⟩

theorem noDot_of_digits {s : Str} (h : s.all isDigitChar = true) : ∀ c ∈ s, c ≠ '.' :=
  fun c hc => beq_eq_false_iff_ne.mp (isDigitChar_not_special (List.all_eq_true.mp h c hc)).1

theorem all_digits_append {a b : Str} (ha : a.all isDigitChar = true)
    (hb : b.all isDigitChar = true) : (a ++ b).all isDigitChar = true := by
  rw [List.all_append, ha, hb]
  rfl

theorem timeField_parsed (t : PyDatetime) (hv : t.Valid) :
    pyInt? ((timeField t).take 2) = some t.hour ∧
    pyInt? (((timeField t).drop 2).take 2) = some t.minute ∧
    pyInt? (((timeField t).drop 4).take 2) = some t.second ∧
    '.' ∈ timeField t ∧
    pySplit '.' (timeField t) =
      [natPad 2 t.hour.toNat ++ natPad 2 t.minute.toNat ++ natPad 2 t.second.toNat,
       (natPad 6 t.microsecond.toNat).take 3] ∧
    pyFloat? ('0' :: '.' :: (natPad 6 t.microsecond.toNat).take 3) =
      some ((parseNat ((natPad 6 t.microsecond.toNat).take 3) : ℚ) / 10 ^ (3 : Nat)) ∧
    parseNat ((natPad 6 t.microsecond.toNat).take 3) < 1000 := by
  obtain ⟨_, _, _, _, _, _, h0h, hh, h0m, hm, h0s, hs, h0u, hu⟩ := hv
  have ha : (natPad 2 t.hour.toNat).length = 2 := natPad_length (by norm_num) (by omega)
  have hb : (natPad 2 t.minute.toNat).length = 2 := natPad_length (by norm_num) (by omega)
  have hc : (natPad 2 t.second.toNat).length = 2 := natPad_length (by norm_num) (by omega)
  have hms3dig : ((natPad 6 t.microsecond.toNat).take 3).all isDigitChar = true :=
    all_digits_take _ (natPad_all_digits 6 t.microsecond.toNat) 3
  have hms3len : ((natPad 6 t.microsecond.toNat).take 3).length = 3 := by
    rw [List.length_take, natPad_length (by norm_num)
      (by rw [show (10 : ℕ) ^ 6 = 1000000 from by norm_num]; omega)]
    norm_num
  have heq : timeField t = natPad 2 t.hour.toNat ++ (natPad 2 t.minute.toNat ++
      (natPad 2 t.second.toNat ++ ('.' :: (natPad 6 t.microsecond.toNat).take 3))) := by
    rw [timeField]
    simp [List.append_assoc]
  have heq2 : timeField t = (natPad 2 t.hour.toNat ++ natPad 2 t.minute.toNat ++
      natPad 2 t.second.toNat) ++ ('.' :: (natPad 6 t.microsecond.toNat).take 3) := by
    rw [timeField]
  obtain ⟨htk, htk2, htk4⟩ := drop_take_decomp (natPad 2 t.hour.toNat)
    (natPad 2 t.minute.toNat) (natPad 2 t.second.toNat)
    ('.' :: (natPad 6 t.microsecond.toNat).take 3) ha hb hc
  refine ⟨?_, ?_, ?_, ?_, ?_, ?_, ?_⟩
  · rw [heq, htk, pyInt?_natPad, Int.toNat_of_nonneg h0h]
  · rw [heq, htk2, pyInt?_natPad, Int.toNat_of_nonneg h0m]
  · rw [heq, htk4, pyInt?_natPad, Int.toNat_of_nonneg h0s]
  · rw [heq]
    simp
  · rw [heq2, pySplit_append '.' _ _
      (noDot_of_digits (all_digits_append (all_digits_append
        (natPad_all_digits 2 t.hour.toNat) (natPad_all_digits 2 t.minute.toNat))
        (natPad_all_digits 2 t.second.toNat)))]
    rw [pySplit_no_sep '.' _ (noDot_of_digits hms3dig)]
  · rw [show ('0' :: '.' :: (natPad 6 t.microsecond.toNat).take 3) =
      ['0'] ++ '.' :: (natPad 6 t.microsecond.toNat).take 3 from rfl]
    rw [pyFloat?_fixed ['0'] _ (by decide) hms3dig (by decide), hms3len]
    rw [show parseNat ['0'] = 0 from rfl, Nat.cast_zero, zero_add]
  · have := parseNat_lt_pow _ hms3dig
    rw [hms3len] at this
    omega

theorem daysInMonth_le (y m : Int) : daysInMonth y m ≤ 31 := by
  rw [daysInMonth]
  split_ifs <;> norm_num

theorem dateField_parsed (t : PyDatetime) (hv : t.Valid) :
    pyInt? ((dateField t).take 2) = some t.day ∧
    pyInt? (((dateField t).drop 2).take 2) = some t.month ∧
    pyInt? (((dateField t).drop 4).take 2) = some ((t.year.toNat % 100 : ℕ) : Int) := by
  obtain ⟨hy1, hy2, hmo1, hmo2, hd1, hd2, _, _, _, _, _, _, _, _⟩ := hv
  have hdle : t.day ≤ 31 := le_trans hd2 (daysInMonth_le t.year t.month)
  have ha : (natPad 2 t.day.toNat).length = 2 := natPad_length (by norm_num) (by omega)
  have hb : (natPad 2 t.month.toNat).length = 2 := natPad_length (by norm_num) (by omega)
  have hc : (natPad 2 (t.year.toNat % 100)).length = 2 := natPad_length (by norm_num)
    (by have := Nat.mod_lt t.year.toNat (show 0 < 100 by norm_num); omega)
  have heq : dateField t = natPad 2 t.day.toNat ++ (natPad 2 t.month.toNat ++
      (natPad 2 (t.year.toNat % 100) ++ ([] : Str))) := by
    rw [dateField]
    simp [List.append_assoc]
  obtain ⟨htk, htk2, htk4⟩ := drop_take_decomp (natPad 2 t.day.toNat)
    (natPad 2 t.month.toNat) (natPad 2 (t.year.toNat % 100)) ([] : Str) ha hb hc
  refine ⟨?_, ?_, ?_⟩
  · rw [heq, htk, pyInt?_natPad, Int.toNat_of_nonneg (by omega)]
  · rw [heq, htk2, pyInt?_natPad, Int.toNat_of_nonneg (by omega)]
  · rw [heq, htk4, pyInt?_natPad]

theorem parseDatetime?_timeField_now (now t : PyDatetime) (hv : t.Valid) (hnow : now.Valid) :
    ∃ dt, parseDatetime? now (timeField t) none = some dt := by
  obtain ⟨hp1, hp2, hp3, hdot, hsplit, hfloat, hlt⟩ := timeField_parsed t hv
  have hne : timeField t ≠ [] := by
    intro hc
    rw [hc] at hdot
    exact absurd hdot (List.not_mem_nil '.')
  rw [parseDatetime?, if_neg hne, hp1, hp2, hp3]
  dsimp only
  have hgetD : (pySplit '.' (timeField t)).getD 1 [] =
      (natPad 6 t.microsecond.toNat).take 3 := by
    rw [hsplit]
    rfl
  rw [if_pos hdot, hgetD, hfloat]
  dsimp only
  have htr : pyTrunc ((parseNat ((natPad 6 t.microsecond.toNat).take 3) : ℚ) /
      10 ^ (3 : Nat) * 1000000) =
      ((parseNat ((natPad 6 t.microsecond.toNat).take 3) * 1000 : ℕ) : Int) := by
    have hq : (parseNat ((natPad 6 t.microsecond.toNat).take 3) : ℚ) /
        10 ^ (3 : Nat) * 1000000 =
        ((parseNat ((natPad 6 t.microsecond.toNat).take 3) * 1000 : ℕ) : ℚ) := by
      push_cast
      field_simp
      ring
    rw [hq, pyTrunc, if_pos (by positivity), Int.floor_natCast]
  rw [htr]
  have hval : PyDatetime.Valid ⟨now.year, now.month, now.day, t.hour, t.minute, t.second,
      ((parseNat ((natPad 6 t.microsecond.toNat).take 3) * 1000 : ℕ) : Int), now.utc⟩ := by
    obtain ⟨ha1, ha2, ha3, ha4, ha5, ha6, _, _, _, _, _, _, _, _⟩ := hnow
    obtain ⟨_, _, _, _, _, _, hb7, hb8, hb9, hb10, hb11, hb12, _, _⟩ := hv
    have hmic1 : ((parseNat ((natPad 6 t.microsecond.toNat).take 3) * 1000 : ℕ) : Int) ≤
        999999 := by
      have : (parseNat ((natPad 6 t.microsecond.toNat).take 3) * 1000 : ℕ) ≤ 999999 := by omega
      exact_mod_cast this
    exact ⟨ha1, ha2, ha3, ha4, ha5, ha6, hb7, hb8, hb9, hb10, hb11, hb12,
      Int.natCast_nonneg _, hmic1⟩
  simp only [mkDatetime?]
  rw [if_pos hval]
  exact ⟨_, rfl⟩

theorem parseDatetime?_timeField_date (now t : PyDatetime) (hv : t.Valid) :
    ∃ dt, parseDatetime? now (timeField t) (some (dateField t)) = some dt := by
  obtain ⟨hp1, hp2, hp3, hdot, hsplit, hfloat, hlt⟩ := timeField_parsed t hv
  obtain ⟨hq1, hq2, hq3⟩ := dateField_parsed t hv
  have hne : timeField t ≠ [] := by
    intro hc
    rw [hc] at hdot
    exact absurd hdot (List.not_mem_nil '.')
  rw [parseDatetime?, if_neg hne, hp1, hp2, hp3]
  dsimp only
  have hgetD : (pySplit '.' (timeField t)).getD 1 [] =
      (natPad 6 t.microsecond.toNat).take 3 := by
    rw [hsplit]
    rfl
  rw [if_pos hdot, hgetD, hfloat]
  dsimp only
  have htr : pyTrunc ((parseNat ((natPad 6 t.microsecond.toNat).take 3) : ℚ) /
      10 ^ (3 : Nat) * 1000000) =
      ((parseNat ((natPad 6 t.microsecond.toNat).take 3) * 1000 : ℕ) : Int) := by
    have hq : (parseNat ((natPad 6 t.microsecond.toNat).take 3) : ℚ) /
        10 ^ (3 : Nat) * 1000000 =
        ((parseNat ((natPad 6 t.microsecond.toNat).take 3) * 1000 : ℕ) : ℚ) := by
      push_cast
      field_simp
      ring
    rw [hq, pyTrunc, if_pos (by positivity), Int.floor_natCast]
  rw [htr]
  rw [hq1, hq2, hq3]
  dsimp only
  obtain ⟨hy1, hy2, hmo1, hmo2, hd1, hd2, hb7, hb8, hb9, hb10, hb11, hb12, _, _⟩ := hv
  have hcast : ((t.year.toNat % 100 : ℕ) : Int) = t.year % 100 := by omega
  have hday : t.day ≤ daysInMonth (((t.year.toNat % 100 : ℕ) : Int) + 2000) t.month := by
    by_cases hm2 : t.month = 2
    · rw [hm2] at hd2 ⊢
      rw [daysInMonth] at hd2 ⊢
      rw [if_pos rfl] at hd2 ⊢
      by_cases hleap : isLeapYear t.year = true
      · rw [if_pos hleap] at hd2
        have hleap2 : isLeapYear (((t.year.toNat % 100 : ℕ) : Int) + 2000) = true := by
          rw [hcast]
          exact isLeapYear_mod t.year hleap
        rw [if_pos hleap2]
        exact hd2
      · rw [if_neg hleap] at hd2
        by_cases hleap2 : isLeapYear (((t.year.toNat % 100 : ℕ) : Int) + 2000) = true
        · rw [if_pos hleap2]
          omega
        · rw [if_neg hleap2]
          exact hd2
    · rw [daysInMonth_indep _ t.year _ hm2]
      exact hd2
  have hval : PyDatetime.Valid ⟨((t.year.toNat % 100 : ℕ) : Int) + 2000, t.month, t.day,
      t.hour, t.minute, t.second,
      ((parseNat ((natPad 6 t.microsecond.toNat).take 3) * 1000 : ℕ) : Int), true⟩ := by
    have hmic1 : ((parseNat ((natPad 6 t.microsecond.toNat).take 3) * 1000 : ℕ) : Int) ≤
        999999 := by
      have : (parseNat ((natPad 6 t.microsecond.toNat).take 3) * 1000 : ℕ) ≤ 999999 := by omega
      exact_mod_cast this
    exact ⟨(by omega : (1 : Int) ≤ ((t.year.toNat % 100 : ℕ) : Int) + 2000),
      (by omega : ((t.year.toNat % 100 : ℕ) : Int) + 2000 ≤ 9999),
      hmo1, hmo2, hd1, hday, hb7, hb8, hb9, hb10, hb11, hb12,
      Int.natCast_nonneg _, hmic1⟩
  simp only [mkDatetime?]
  rw [if_pos hval]
  exact ⟨_, rfl⟩

-- Decoding a framed encoder sentence reaches `decodeFields` on the very
-- field list the encoder assembled.

theorem fmtFloat_ne_nil (decs width : Nat) (q : ℚ) : fmtFloat decs width q ≠ [] := by
  rw [fmtFloat]
  by_cases h : round (q * (10 : ℚ) ^ decs) < 0
  · rw [if_pos h]
    exact List.cons_ne_nil _ _
  · rw [if_neg h]
    intro hc
    exact natDigits_ne_nil _ (List.append_eq_nil.mp (List.append_eq_nil.mp hc).2).1

theorem preprocess_frame (body : Str) (h : '*' ∉ body) :
    preprocess (frame body) = pySplit ',' body := by
  rw [preprocess, frame]
  rw [show '$' :: body ++ '*' :: (calculate_checksum body ++ ['\r', '\n']) =
      ('$' :: body) ++ '*' :: (calculate_checksum body ++ ['\r', '\n']) from rfl]
  rw [pyStrip_dollar_star]
  rw [truncAtStar_append ('$' :: body) _ (by
    intro hc
    rcases List.mem_cons.mp hc with h1 | h1
    · exact absurd h1 (by decide)
    · exact h h1)]
  rfl

theorem decode_frame (now : PyDatetime) (fields : List Str) (hne : fields ≠ [])
    (hsafe : ∀ f ∈ fields, BodySafe f) (hcomma : ∀ f ∈ fields, NoComma f) :
    decode now (frame (joinFields fields)) = decodeFields now fields := by
  have hstar : '*' ∉ joinFields fields := fun hm =>
    (bodySafe_joinFields fields hsafe '*' hm).2 rfl
  rw [decode]
  rw [show (frame (joinFields fields)).head? = some '$' from rfl]
  rw [if_pos rfl, preprocess_frame _ hstar, pySplit_joinFields fields hne hcomma]

theorem decodeFields_gga_shape (now : PyDatetime) (tf lats latd lons lond elev : Str) :
    decodeFields now [lit "GPGGA", tf, lats, latd, lons, lond, lit "1", lit "08",
      lit "1.0", elev, lit "M", lit "0.0", lit "M", [], []] =
      (match parseLat? lats latd with
       | none => .error (lit "latitude parse raised")
       | some lat =>
         match parseLon? lons lond with
         | none => .error (lit "longitude parse raised")
         | some lon =>
           match (if elev = [] then some (0 : ℚ) else pyFloat? elev) with
           | none => .error (lit "elevation parse raised")
           | some elevation =>
             match parseDatetime? now tf none with
             | none => .error (lit "No valid datetime in GGA")
             | some dt => .ok ⟨0, lat, lon, 0, elevation, dt, 0, lit "auto", []⟩) := rfl

theorem decodeFields_rmc_shape (now : PyDatetime) (tf lats latd lons lond spd df : Str) :
    decodeFields now [lit "GPRMC", tf, lit "A", lats, latd, lons, lond, spd,
      lit "0.0", df, [], [], lit "A"] =
      (match parseLat? lats latd with
       | none => .error (lit "latitude parse raised")
       | some lat =>
         match parseLon? lons lond with
         | none => .error (lit "longitude parse raised")
         | some lon =>
           match (if spd = [] then some (0 : ℚ)
               else (pyFloat? spd).map (fun k => k * (1852 / 1000 : ℚ))) with
           | none => .error (lit "speed parse raised")
           | some speed =>
             match parseDatetime? now tf (some df) with
             | none => .error (lit "No valid datetime in RMC")
             | some dt => .ok ⟨0, lat, lon, speed, 0, dt, 0, lit "auto", []⟩) := rfl

theorem decode_gga_roundtrip (now : PyDatetime) (p : Position)
    (h1 : -90 ≤ p.lat) (h2 : p.lat ≤ 90) (h3 : -180 ≤ p.lon) (h4 : p.lon ≤ 180)
    (hv : p.time.Valid) (hnow : now.Valid) :
    ∃ q, decode now (encode_gga p) = .ok q ∧
      |q.lat - p.lat| ≤ 1 / 120000000 ∧ |q.lon - p.lon| ≤ 1 / 120000000 ∧
      q.elevation = ((round (p.elevation * 10) : ℤ) : ℚ) / 10 ∧ q.speed = 0 := by
  obtain ⟨vlat, hvlat, hblat⟩ := parseLat?_encoded p.lat p.lon h1 h2
  obtain ⟨vlon, hvlon, hblon⟩ := parseLon?_encoded p.lat p.lon h3 h4
  obtain ⟨dt, hdt⟩ := parseDatetime?_timeField_now now p.time hv hnow
  rw [encode_gga, decode_frame now _ (by simp [encodeGGAFields])
    (bodySafe_ggaFields p) (noComma_ggaFields p)]
  rw [encodeGGAFields]
  rw [decodeFields_gga_shape]
  rw [hvlat]
  dsimp only
  rw [hvlon]
  dsimp only
  rw [if_neg (fmtFloat_ne_nil 1 0 p.elevation), pyFloat?_fmtFloat1]
  dsimp only
  rw [hdt]
  dsimp only
  exact ⟨_, rfl, hblat, hblon, rfl, rfl⟩

theorem decode_rmc_roundtrip (now : PyDatetime) (p : Position)
    (h1 : -90 ≤ p.lat) (h2 : p.lat ≤ 90) (h3 : -180 ≤ p.lon) (h4 : p.lon ≤ 180)
    (h5 : 0 ≤ p.speed) (hv : p.time.Valid) :
    ∃ q, decode now (encode_rmc p) = .ok q ∧
      |q.lat - p.lat| ≤ 1 / 120000000 ∧ |q.lon - p.lon| ≤ 1 / 120000000 ∧
      |q.speed / (1852 / 1000) - p.speed * (539957 / 1000000)| ≤ 1 / 20 := by
  obtain ⟨vlat, hvlat, hblat⟩ := parseLat?_encoded p.lat p.lon h1 h2
  obtain ⟨vlon, hvlon, hblon⟩ := parseLon?_encoded p.lat p.lon h3 h4
  obtain ⟨dt, hdt⟩ := parseDatetime?_timeField_date now p.time hv
  rw [encode_rmc, decode_frame now _ (by simp [encodeRMCFields])
    (bodySafe_rmcFields p) (noComma_rmcFields p)]
  rw [encodeRMCFields]
  rw [decodeFields_rmc_shape]
  rw [hvlat]
  dsimp only
  rw [hvlon]
  dsimp only
  rw [if_neg (fmtFloat_ne_nil 1 0 _), pyFloat?_fmtFloat1, Option.map_some']
  dsimp only
  rw [hdt]
  dsimp only
  refine ⟨_, rfl, hblat, hblon, ?_⟩
  have hc : ((1852 : ℚ) / 1000) ≠ 0 := by norm_num
  rw [mul_div_cancel_right₀ _ hc]
  have habs := abs_sub_round (p.speed * (539957 / 1000000) * 10)
  rw [abs_sub_comm] at habs
  rw [show ((round (p.speed * (539957 / 1000000) * 10) : ℤ) : ℚ) / 10 -
      p.speed * (539957 / 1000000) =
      (((round (p.speed * (539957 / 1000000) * 10) : ℤ) : ℚ) -
        p.speed * (539957 / 1000000) * 10) / 10 from by ring]
  rw [abs_div, show |(10 : ℚ)| = 10 from by norm_num]
  linarith

/-- Claim C4 (amended): for every Position with `lat ∈ [-90, 90]`,
`lon ∈ [-180, 180]`, `speed ≥ 0`, any elevation and a valid timestamp (with a
valid wall clock for the date-less GGA path), decoding the encoded GGA sentence
succeeds and reproduces latitude and longitude to within the packed
six-decimal-minute precision (at most `1/120000000` degrees) and the elevation
to one decimal (at most `1/20`), with the speed field zero; decoding the
encoded RMC sentence succeeds and reproduces latitude and longitude to the same
precision, and a speed which — converted back to knots by the decoder's
`1.852` factor — equals the encoder's knot value (`speed * 0.539957`) to one
decimal (at most `1/20` of a knot).  The speed in km/h itself is NOT recovered
to within one-decimal-knot rounding for all inputs, because `0.539957` and
`1.852` are not exact inverses (see `rmc_kmh_speed_drift`). -/
theorem codec_roundtrip (now : PyDatetime) (p : Position)
    (h1 : -90 ≤ p.lat) (h2 : p.lat ≤ 90) (h3 : -180 ≤ p.lon) (h4 : p.lon ≤ 180)
    (h5 : 0 ≤ p.speed) (hv : p.time.Valid) (hnow : now.Valid) :
    (∃ q, decode now (encode_gga p) = .ok q ∧
      |q.lat - p.lat| ≤ 1 / 120000000 ∧ |q.lon - p.lon| ≤ 1 / 120000000 ∧
      |q.elevation - p.elevation| ≤ 1 / 20 ∧ q.speed = 0) ∧
    (∃ r, decode now (encode_rmc p) = .ok r ∧
      |r.lat - p.lat| ≤ 1 / 120000000 ∧ |r.lon - p.lon| ≤ 1 / 120000000 ∧
      |r.speed / (1852 / 1000) - p.speed * (539957 / 1000000)| ≤ 1 / 20) := by
  obtain ⟨q, hq, hqa, hqb, hqe, hqs⟩ := decode_gga_roundtrip now p h1 h2 h3 h4 hv hnow
  obtain ⟨r, hr, hra, hrb, hrs⟩ := decode_rmc_roundtrip now p h1 h2 h3 h4 h5 hv
  refine ⟨⟨q, hq, hqa, hqb, ?_, hqs⟩, ⟨r, hr, hra, hrb, hrs⟩⟩
  rw [hqe]
  have habs := abs_sub_round (p.elevation * 10)
  rw [abs_sub_comm] at habs
  rw [show ((round (p.elevation * 10) : ℤ) : ℚ) / 10 - p.elevation =
      (((round (p.elevation * 10) : ℤ) : ℚ) - p.elevation * 10) / 10 from by ring]
  rw [abs_div, show |(10 : ℚ)| = 10 from by norm_num]
  linarith

/-- Claim C4 as stated is false for the RMC speed read in km/h: at
`speed = 10^9` km/h the encoded knot value is exact (no rounding error at
all), yet decoding returns a speed off by `364` km/h, far beyond any
one-decimal-knot rounding allowance — the decoder's `* 1.852` is not the
inverse of the encoder's `* 0.539957` (their product is `1.000000364`). -/
theorem rmc_kmh_speed_drift :
    ∃ r, decode loadClock
        (encode_rmc ⟨0, 0, 0, 10 ^ 9, 0, epoch1970, 0, lit "auto", []⟩) = .ok r ∧
      |r.speed - 10 ^ 9| = 364 := by
  obtain ⟨vlat, hvlat, hblat⟩ := parseLat?_encoded 0 0 (by norm_num) (by norm_num)
  obtain ⟨vlon, hvlon, hblon⟩ := parseLon?_encoded 0 0 (by norm_num) (by norm_num)
  obtain ⟨dt, hdt⟩ := parseDatetime?_timeField_date loadClock epoch1970 (by decide)
  rw [encode_rmc, decode_frame loadClock _ (by simp [encodeRMCFields])
    (bodySafe_rmcFields _) (noComma_rmcFields _)]
  rw [encodeRMCFields]
  dsimp only
  rw [decodeFields_rmc_shape]
  rw [hvlat]
  dsimp only
  rw [hvlon]
  dsimp only
  rw [if_neg (fmtFloat_ne_nil 1 0 _), pyFloat?_fmtFloat1, Option.map_some']
  dsimp only
  rw [hdt]
  dsimp only
  refine ⟨_, rfl, ?_⟩
  rw [show ((10 : ℚ) ^ 9 * (539957 / 1000000) * 10) = ((5399570000 : ℤ) : ℚ) from by
    norm_num]
  rw [round_intCast]
  rw [show ((5399570000 : ℤ) : ℚ) / 10 * (1852 / 1000) - 10 ^ 9 = (364 : ℚ) from by
    norm_num]
  norm_num

/-- Witness for `codec_roundtrip`: the C9 position (lat 59.9343, lon 30.3351,
speed 10 km/h, epoch timestamp) satisfies every hypothesis and both encoded
sentences decode back within the stated tolerances. -/
theorem codec_roundtrip_witness :
    (-90 ≤ c9pos.lat ∧ c9pos.lat ≤ 90 ∧ -180 ≤ c9pos.lon ∧ c9pos.lon ≤ 180 ∧
      0 ≤ c9pos.speed ∧ c9pos.time.Valid ∧ loadClock.Valid) ∧
    ((∃ q, decode loadClock (encode_gga c9pos) = .ok q ∧
      |q.lat - c9pos.lat| ≤ 1 / 120000000 ∧ |q.lon - c9pos.lon| ≤ 1 / 120000000 ∧
      |q.elevation - c9pos.elevation| ≤ 1 / 20 ∧ q.speed = 0) ∧
    (∃ r, decode loadClock (encode_rmc c9pos) = .ok r ∧
      |r.lat - c9pos.lat| ≤ 1 / 120000000 ∧ |r.lon - c9pos.lon| ≤ 1 / 120000000 ∧
      |r.speed / (1852 / 1000) - c9pos.speed * (539957 / 1000000)| ≤ 1 / 20)) :=
  ⟨⟨by norm_num [c9pos], by norm_num [c9pos], by norm_num [c9pos], by norm_num [c9pos],
    by norm_num [c9pos], by decide, by decide⟩,
   codec_roundtrip loadClock c9pos (by norm_num [c9pos]) (by norm_num [c9pos])
     (by norm_num [c9pos]) (by norm_num [c9pos]) (by norm_num [c9pos])
     (by decide) (by decide)⟩
